import Mathlib

/-!
# Verification of the Pokemon-Store-Bot checkout engine

Shallow embedding of the bot's core data structures and operations
(src/fast-checkout.js, src/fleet-runner.js, src/http-engine.js) together
with proofs about the frozen specification claims.

Conventions used throughout:
* JS strings are Lean `String`s; character-level operations work on `.data`.
* JS objects with string keys are insertion-ordered association lists
  (`List (String × α)`), matching JS property-order semantics.
* Timestamps (`Date.now()` values) are integers (`Int`), passed explicitly.
* Network I/O is abstracted by explicit environment/oracle arguments at the
  exact points where the source performs a request; everything in between is
  translated directly from the source.
-/

namespace Bot

/-- JS object property assignment on an insertion-ordered association list:
if the key already exists its value is replaced in place, otherwise the pair
is appended at the end (JS string-keyed objects preserve insertion order). -/
def jsObjSet {α : Type} : List (String × α) → String → α → List (String × α)
  | [], k, v => [(k, v)]
  | (k', v') :: rest, k, v =>
      if k' = k then (k, v) :: rest else (k', v') :: jsObjSet rest k v

/-- JS object property read: value of the first (and only) binding of `k`. -/
def jsObjGet {α : Type} (m : List (String × α)) (k : String) : Option α :=
  (m.find? (fun p => p.1 = k)).map Prod.snd

/-- JS `String.prototype.trim()`: strip whitespace from both ends. -/
def jsTrim (s : String) : String :=
  String.mk (((s.data.dropWhile Char.isWhitespace).reverse.dropWhile
    Char.isWhitespace).reverse)

/-- JS `Array.prototype.join(sep)`. -/
def joinSep (sep : String) : List String → String
  | [] => ""
  | [x] => x
  | x :: y :: xs => x ++ sep ++ joinSep sep (y :: xs)

/-- JS `a.endsWith(b)` (character-level). -/
def jsEndsWith (s suffix : String) : Bool :=
  suffix.data.isSuffixOf s.data

/-- `a` occurs as a contiguous substring of `s` (character-level). -/
def SubstrOf (a s : String) : Prop :=
  a.data <:+: s.data

instance (a s : String) : Decidable (SubstrOf a s) := by
  unfold SubstrOf; infer_instance

-- ════════════════════════════════════════════════════════════════
-- Cookie jar (src/fast-checkout.js lines 64-96, class CookieJar)
-- ════════════════════════════════════════════════════════════════

/-- One domain's cookies: cookie name → value, insertion ordered. -/
abbrev CookieMap := List (String × String)

/-- The jar's `store`: hostname → cookie map, insertion ordered. -/
abbrev CookieStore := List (String × CookieMap)

/-- Parse one `set-cookie` header the way `CookieJar.update` does:
`raw.split(";")[0]`, then the text before the first `=` (must be nonempty,
trimmed) is the name and everything after it is the value; a header whose
first `=` is missing or at position 0 is skipped (`eq < 1`). -/
def parseSetCookie (raw : String) : Option (String × String) :=
  let parts := raw.data.takeWhile (fun c => c ≠ ';')
  let pre := parts.takeWhile (fun c => c ≠ '=')
  if pre.length < parts.length ∧ 1 ≤ pre.length then
    some (jsTrim (String.mk pre), String.mk (parts.drop (pre.length + 1)))
  else none

namespace CookieJar

/-- `CookieJar.update(url, setCookieHeaders)`: the JS code keys the store by
`new URL(url).hostname`; the model takes that hostname directly. The domain's
entry is created if absent, then every header's parsed name=value pair is
stored under it (later headers overwrite earlier ones of the same name). -/
def update (store : CookieStore) (domain : String) (headers : List String) :
    CookieStore :=
  let store₀ := if (jsObjGet store domain).isSome then store
                else store ++ [(domain, [])]
  headers.foldl (fun st raw =>
    match parseSetCookie raw with
    | some (n, v) => jsObjSet st domain (jsObjSet ((jsObjGet st domain).getD []) n v)
    | none => st) store₀

/-- The domain-match test of `CookieJar.get`: exact match, or suffix
relation in either direction. -/
def domainsMatch (domain d : String) : Bool :=
  domain == d || jsEndsWith domain ("." ++ d) || jsEndsWith d ("." ++ domain)

/-- `CookieJar.get(url)`: all cookies of matching domains joined as
`name=value; name=value` (again keyed by the URL's hostname). -/
def get (store : CookieStore) (domain : String) : String :=
  joinSep "; " ((store.filter (fun p => domainsMatch domain p.1)).flatMap
    (fun p => p.2.map (fun kv => kv.1 ++ "=" ++ kv.2)))

/-- `CookieJar.clear()`: the store becomes empty. -/
def clear : CookieStore := []

end CookieJar

-- Helper lemmas about the JS-object model --------------------------------

theorem jsObjSet_self_mem {α : Type} (m : List (String × α)) (k : String)
    (v : α) : (k, v) ∈ jsObjSet m k v := by
  induction m with
  | nil => simp [jsObjSet]
  | cons p rest ih =>
      obtain ⟨k', v'⟩ := p
      by_cases h : k' = k <;> simp [jsObjSet, h, ih]

theorem jsObjSet_preserves_mem {α : Type} {m : List (String × α)}
    {k₀ : String} {v₀ : α} (k : String) (v : α) (hmem : (k₀, v₀) ∈ m)
    (hne : k₀ ≠ k) : (k₀, v₀) ∈ jsObjSet m k v := by
  induction m with
  | nil => cases hmem
  | cons p rest ih =>
      obtain ⟨k', v'⟩ := p
      by_cases h : k' = k
      · subst h
        rcases List.mem_cons.mp hmem with h' | h'
        · exact absurd (congrArg Prod.fst h') hne
        · simp [jsObjSet, List.mem_cons, h']
      · rcases List.mem_cons.mp hmem with h' | h'
        · simp [jsObjSet, h, List.mem_cons, h']
        · simp only [jsObjSet, if_neg h, List.mem_cons]
          exact Or.inr (ih h')

theorem jsObjGet_jsObjSet_self {α : Type} (m : List (String × α))
    (k : String) (v : α) : jsObjGet (jsObjSet m k v) k = some v := by
  induction m with
  | nil => simp [jsObjSet, jsObjGet]
  | cons p rest ih =>
      obtain ⟨k', v'⟩ := p
      by_cases h : k' = k <;> simp [jsObjSet, jsObjGet, h] at ih ⊢
      exact ih

theorem jsObjGet_mem {α : Type} {m : List (String × α)} {k : String} {v : α}
    (h : jsObjGet m k = some v) : (k, v) ∈ m := by
  unfold jsObjGet at h
  rcases Option.map_eq_some'.mp h with ⟨p, hfind, hsnd⟩
  have hk := List.find?_some hfind
  have hp := List.mem_of_find?_eq_some hfind
  obtain ⟨k', v'⟩ := p
  simp only [decide_eq_true_eq] at hk
  cases hk; cases hsnd; exact hp

-- Joining and substring containment --------------------------------------

theorem substrOf_of_mem_joinSep {a : String} {l : List String}
    (h : a ∈ l) (sep : String) : SubstrOf a (joinSep sep l) := by
  induction l with
  | nil => cases h
  | cons b bs ihb =>
      rcases List.mem_cons.mp h with rfl | h2
      · cases bs with
        | nil => exact ⟨[], [], by simp [joinSep]⟩
        | cons y ys =>
            refine ⟨[], (sep ++ joinSep sep (y :: ys)).data, ?_⟩
            simp [joinSep]
      · cases bs with
        | nil => cases h2
        | cons y ys =>
            rcases ihb h2 with ⟨s, t, hst⟩
            refine ⟨(b ++ sep).data ++ s, t, ?_⟩
            simp [joinSep, ← hst]

-- The cookie-map fold performed by `CookieJar.update` -----------------------

/-- The effect of `CookieJar.update`'s header loop on one domain's map. -/
def cookieFoldMap (m : CookieMap) (headers : List String) : CookieMap :=
  headers.foldl (fun m raw =>
    match parseSetCookie raw with
    | some (n, v) => jsObjSet m n v
    | none => m) m

/-- The parsed cookie name of a header, if any. -/
def parsedName (raw : String) : Option String :=
  (parseSetCookie raw).map Prod.fst

theorem jsObjGet_append_of_none {α : Type} {store : List (String × α)}
    {domain : String} (h : jsObjGet store domain = none) (m : α) :
    jsObjGet (store ++ [(domain, m)]) domain = some m := by
  induction store with
  | nil => simp [jsObjGet]
  | cons p rest ih =>
      obtain ⟨k', v'⟩ := p
      by_cases hk : k' = domain
      · simp [jsObjGet, hk] at h
      · simp only [jsObjGet, List.cons_append, List.find?] at h ⊢
        simp only [hk, decide_False] at h ⊢
        exact ih h

theorem update_foldl_get {domain : String} (headers : List String) :
    ∀ (st : CookieStore) (m₀ : CookieMap), jsObjGet st domain = some m₀ →
    jsObjGet (headers.foldl (fun st raw =>
      match parseSetCookie raw with
      | some (n, v) =>
          jsObjSet st domain (jsObjSet ((jsObjGet st domain).getD []) n v)
      | none => st) st) domain = some (cookieFoldMap m₀ headers) := by
  induction headers with
  | nil => intro st m₀ h; simpa [cookieFoldMap] using h
  | cons raw rest ih =>
      intro st m₀ h
      cases hp : parseSetCookie raw with
      | none => simpa [List.foldl_cons, hp, cookieFoldMap] using ih st m₀ h
      | some nv =>
          obtain ⟨n, v⟩ := nv
          have hstep := ih (jsObjSet st domain (jsObjSet m₀ n v))
            (jsObjSet m₀ n v) (jsObjGet_jsObjSet_self st domain _)
          simpa [List.foldl_cons, hp, h, cookieFoldMap] using hstep

theorem cookieFoldMap_preserves {n v : String} (rest : List String)
    (hrest : ∀ h' ∈ rest, parsedName h' ≠ some n) :
    ∀ m : CookieMap, (n, v) ∈ m → (n, v) ∈ cookieFoldMap m rest := by
  induction rest with
  | nil => intro m hm; simpa [cookieFoldMap] using hm
  | cons raw rest ih =>
      intro m hm
      cases hp : parseSetCookie raw with
      | none =>
          simpa [cookieFoldMap, List.foldl_cons, hp] using
            ih (fun h' h => hrest h' (List.mem_cons_of_mem _ h)) m hm
      | some nv =>
          obtain ⟨n', v'⟩ := nv
          have hne : n ≠ n' := by
            intro hcontra
            exact hrest raw (List.mem_cons_self _ _)
              (by simp [parsedName, hp, hcontra])
          simpa [cookieFoldMap, List.foldl_cons, hp] using
            ih (fun h' h => hrest h' (List.mem_cons_of_mem _ h))
              (jsObjSet m n' v') (jsObjSet_preserves_mem n' v' hm hne)

theorem cookieFoldMap_mem (headers : List String)
    (hdist : headers.Pairwise (fun h₁ h₂ => parsedName h₁ ≠ parsedName h₂)) :
    ∀ (m : CookieMap) (h : String), h ∈ headers → ∀ n v,
    parseSetCookie h = some (n, v) → (n, v) ∈ cookieFoldMap m headers := by
  induction headers with
  | nil => intro m h hmem; cases hmem
  | cons h₀ rest ih =>
      intro m h hmem n v hparse
      rcases List.mem_cons.mp hmem with rfl | hmem'
      · have hnames : ∀ h' ∈ rest, parsedName h' ≠ some n := by
          intro h' hh' hcontra
          have := (List.pairwise_cons.mp hdist).1 h' hh'
          rw [parsedName, hparse] at this
          simp only [Option.map_some', parsedName] at this hcontra
          exact this (by rw [hcontra])
        have hmem₁ : (n, v) ∈ jsObjSet m n v := jsObjSet_self_mem m n v
        simpa [cookieFoldMap, List.foldl_cons, hparse] using
          cookieFoldMap_preserves rest hnames _ hmem₁
      · have hdist' := (List.pairwise_cons.mp hdist).2
        cases hp : parseSetCookie h₀ with
        | none =>
            simpa [cookieFoldMap, List.foldl_cons, hp] using
              ih hdist' m h hmem' n v hparse
        | some nv =>
            simpa [cookieFoldMap, List.foldl_cons, hp] using
              ih hdist' (jsObjSet m nv.1 nv.2) h hmem' n v hparse

/-- **C5, counterexample.** The claim quantifies over every list of
well-formed set-cookie headers, but when two headers carry the same cookie
name the later one overwrites the earlier one in the jar (`CookieJar.update`
is a keyed store), so the earlier `name=value` pair is absent from `get`'s
output: after `update` with `["a=1", "a=2"]` the jar returns `"a=2"`, which
does not contain `"a=1"`. -/
theorem cookieJar_duplicate_name_counterexample :
    (∀ h ∈ ["a=1", "a=2"], (parseSetCookie h).isSome) ∧
    parseSetCookie "a=1" = some ("a", "1") ∧
    CookieJar.domainsMatch "x.com" "x.com" = true ∧
    CookieJar.get (CookieJar.update [] "x.com" ["a=1", "a=2"]) "x.com" = "a=2" ∧
    ¬ SubstrOf ("a" ++ "=" ++ "1")
      (CookieJar.get (CookieJar.update [] "x.com" ["a=1", "a=2"]) "x.com") := by
  refine ⟨by decide, by decide, by decide, by decide, ?_⟩
  intro hinfix
  exact absurd hinfix (by decide)

/-- **C5 (amended).** CookieJar round-trip: for every list of well-formed
set-cookie headers (each having a `name=value` prefix) **whose parsed cookie
names are pairwise distinct**, and every URL whose domain exactly matches or
is suffix-related to the update URL's domain, `update` followed by `get`
returns a string containing every supplied `name=value` pair (name as
trimmed by `update`), joined as `name=value; name=value`; and for every jar
state, `clear()` followed by `get` on any URL returns the empty string. -/
theorem cookieJar_roundtrip
    (headers : List String) (store : CookieStore) (domain domain' : String)
    (_hwf : ∀ h ∈ headers, (parseSetCookie h).isSome)
    (hdist : headers.Pairwise (fun h₁ h₂ => parsedName h₁ ≠ parsedName h₂))
    (hmatch : CookieJar.domainsMatch domain' domain = true) :
    (∀ h ∈ headers, ∀ n v, parseSetCookie h = some (n, v) →
      SubstrOf (n ++ "=" ++ v)
        (CookieJar.get (CookieJar.update store domain headers) domain'))
    ∧ ∀ u : String, CookieJar.get CookieJar.clear u = "" := by
  constructor
  · intro h hmem n v hparse
    have hfinal : ∃ m₀ : CookieMap,
        jsObjGet (CookieJar.update store domain headers) domain =
          some (cookieFoldMap m₀ headers) := by
      cases hP : jsObjGet store domain with
      | some m₀ =>
          refine ⟨m₀, ?_⟩
          unfold CookieJar.update
          simp only [hP, Option.isSome_some, if_pos]
          exact update_foldl_get headers store m₀ hP
      | none =>
          refine ⟨[], ?_⟩
          unfold CookieJar.update
          simp only [hP, Option.isSome_none, Bool.false_eq_true, if_neg,
            if_false]
          exact update_foldl_get headers (store ++ [(domain, [])]) []
            (jsObjGet_append_of_none hP [])
    obtain ⟨m₀, hfinal⟩ := hfinal
    have hmap : (n, v) ∈ cookieFoldMap m₀ headers :=
      cookieFoldMap_mem headers hdist m₀ h hmem n v hparse
    have hentry : (domain, cookieFoldMap m₀ headers) ∈
        CookieJar.update store domain headers := jsObjGet_mem hfinal
    have hfilter : (domain, cookieFoldMap m₀ headers) ∈
        (CookieJar.update store domain headers).filter
          (fun p => CookieJar.domainsMatch domain' p.1) :=
      List.mem_filter.mpr ⟨hentry, hmatch⟩
    have hstr : (n ++ "=" ++ v) ∈
        ((CookieJar.update store domain headers).filter
          (fun p => CookieJar.domainsMatch domain' p.1)).flatMap
          (fun p => p.2.map (fun kv => kv.1 ++ "=" ++ kv.2)) :=
      List.mem_flatMap.mpr ⟨(domain, cookieFoldMap m₀ headers), hfilter,
        List.mem_map_of_mem _ hmap⟩
    exact substrOf_of_mem_joinSep hstr "; "
  · intro u; rfl

/-- Witness for `cookieJar_roundtrip` at a concrete input. -/
theorem cookieJar_roundtrip_witness :
    (∀ h ∈ ["sid=abc", "cart=9"], ∀ n v, parseSetCookie h = some (n, v) →
      SubstrOf (n ++ "=" ++ v)
        (CookieJar.get (CookieJar.update [] "shop.example.com"
          ["sid=abc", "cart=9"]) "api.shop.example.com"))
    ∧ ∀ u : String, CookieJar.get CookieJar.clear u = "" :=
  cookieJar_roundtrip ["sid=abc", "cart=9"] [] "shop.example.com"
    "api.shop.example.com" (by decide) (by decide) (by decide)

-- ════════════════════════════════════════════════════════════════
-- Session persistence (src/fast-checkout.js lines 1470-1511,
-- serializeSession / restoreSession)
-- ════════════════════════════════════════════════════════════════

/-- The per-session browser fingerprint object (`generateFingerprint`). -/
structure Fingerprint where
  secChUa : String
  secChUaMobile : String
  secChUaPlatform : String
  acceptEncoding : String
deriving DecidableEq

/-- The session fields of a `FastCheckout` instance that `serializeSession`
snapshots and `restoreSession` overwrites. -/
structure SessionState where
  store : CookieStore
  ua : String
  fingerprint : Fingerprint
  authToken : Option String
  paymentGatewayId : Option String
  checkoutToken : Option String
  preCheckoutUrl : Option String
  preShippingDone : Bool
  preShippingRateId : Option String
  prePaymentToken : Option String
  baseUrl : Option String
  useH2 : Bool
deriving DecidableEq

/-- A parsed session snapshot as `restoreSession` receives it. Every field
is optional because the snapshot is arbitrary decrypted JSON; `none` models
an absent / `undefined` field. -/
structure SessionSnapshot where
  cookies : Option CookieStore
  ua : Option String
  fingerprint : Option Fingerprint
  authToken : Option String
  paymentGatewayId : Option String
  checkoutToken : Option String
  preCheckoutUrl : Option String
  preShippingDone : Option Bool
  preShippingRateId : Option String
  prePaymentToken : Option String
  baseUrl : Option String
  useH2 : Option Bool
  savedAt : Option Int
deriving DecidableEq

/-- JS `x || null` for a string field: an absent or empty (falsy) string
becomes `null`. -/
def jsOrNullStr : Option String → Option String
  | some v => if v = "" then none else some v
  | none => none

/-- JS `x || dflt` for a string field with a non-null default. -/
def jsOrStr (o : Option String) (dflt : String) : String :=
  match o with
  | some v => if v = "" then dflt else v
  | none => dflt

/-- JS truthiness of the numeric `savedAt` field (`0` is falsy). -/
def savedAtTruthy : Option Int → Bool
  | some n => n != 0
  | none => false

/-- The field-loading block of `restoreSession` (everything after the age
check passes): each assignment `this.f = data.f || default`. -/
def loadSnapshot (st : SessionState) (d : SessionSnapshot) : SessionState :=
  { store := d.cookies.getD []
    ua := jsOrStr d.ua st.ua
    fingerprint := d.fingerprint.getD st.fingerprint
    authToken := jsOrNullStr d.authToken
    paymentGatewayId := jsOrNullStr d.paymentGatewayId
    checkoutToken := jsOrNullStr d.checkoutToken
    preCheckoutUrl := jsOrNullStr d.preCheckoutUrl
    preShippingDone := d.preShippingDone.getD false
    preShippingRateId := jsOrNullStr d.preShippingRateId
    prePaymentToken := jsOrNullStr d.prePaymentToken
    baseUrl := jsOrNullStr d.baseUrl
    useH2 := d.useH2.getD true }

/-- `FastCheckout.restoreSession(data)`. `now` is `Date.now()`. Returns the
JS return value paired with the session state after the call. -/
def restoreSession (st : SessionState) (now : Int)
    (data : Option SessionSnapshot) : Bool × SessionState :=
  match data with
  | none => (false, st)
  | some d =>
      if savedAtTruthy d.savedAt ∧
          now - d.savedAt.getD 0 > 4 * 60 * 60 * 1000 then
        (false, st)
      else
        (true, loadSnapshot st d)

/-- **C4.** Stale-snapshot rejection with atomicity: for every session
snapshot carrying a savedAt timestamp (a positive epoch value) that is more
than 4 hours before the current time, `restoreSession` returns `false`
(treated as absent, not an error) and leaves every session field — cookie
jar, user-agent, fingerprint, authToken, paymentGatewayId, checkoutToken,
pre-warm state, baseUrl, useH2 — exactly as it was before the call. -/
theorem restoreSession_stale_rejected (st : SessionState) (now t : Int)
    (d : SessionSnapshot) (hsaved : d.savedAt = some t) (hpos : 0 < t)
    (hstale : now - t > 4 * 60 * 60 * 1000) :
    restoreSession st now (some d) = (false, st) := by
  simp only [restoreSession]
  rw [if_pos]
  refine ⟨?_, ?_⟩
  · rw [hsaved]; simp [savedAtTruthy]; omega
  · rw [hsaved]; simpa using hstale

/-- A fresh session state, for concrete witnesses. -/
def freshSession : SessionState :=
  { store := []
    ua := "UA0"
    fingerprint := ⟨"chromium-131", "?0", "Windows", "gzip, deflate, br"⟩
    authToken := none
    paymentGatewayId := none
    checkoutToken := none
    preCheckoutUrl := none
    preShippingDone := false
    preShippingRateId := none
    prePaymentToken := none
    baseUrl := none
    useH2 := true }

/-- A concrete snapshot saved at epoch time 100. -/
def staleSnap : SessionSnapshot :=
  { cookies := some [("x.com", [("sid", "1")])]
    ua := some "UA1"
    fingerprint := none
    authToken := some "tok12345"
    paymentGatewayId := some "42"
    checkoutToken := none
    preCheckoutUrl := none
    preShippingDone := some true
    preShippingRateId := none
    prePaymentToken := none
    baseUrl := some "https://x.com"
    useH2 := some false
    savedAt := some 100 }

/-- Witness for `restoreSession_stale_rejected`: at `now = 20000000` the
snapshot saved at 100 is over 4 hours (14400000 ms) old and is rejected
with the session unchanged. -/
theorem restoreSession_stale_rejected_witness :
    restoreSession freshSession 20000000 (some staleSnap) =
      (false, freshSession) :=
  restoreSession_stale_rejected freshSession 20000000 100 staleSnap rfl
    (by decide) (by decide)

/-- **C10.** The 4-hour staleness check applies only to snapshots carrying
a truthy `savedAt`: a snapshot whose `savedAt` is absent or zero is accepted
regardless of its age (all fields are loaded, `true` is returned), and
`restoreSession` returns `false` (without loading) exactly when the input is
null/undefined or `savedAt` is truthy and more than 4 hours old. -/
theorem restoreSession_falsy_savedAt (st : SessionState) (now : Int) :
    (∀ d : SessionSnapshot, savedAtTruthy d.savedAt = false →
      restoreSession st now (some d) = (true, loadSnapshot st d)) ∧
    restoreSession st now none = (false, st) ∧
    (∀ d : SessionSnapshot, (restoreSession st now (some d)).1 = false ↔
      (savedAtTruthy d.savedAt = true ∧
        now - d.savedAt.getD 0 > 4 * 60 * 60 * 1000)) := by
  refine ⟨?_, rfl, ?_⟩
  · intro d hfalsy
    simp only [restoreSession]
    rw [if_neg]
    intro ⟨h1, _⟩
    rw [hfalsy] at h1
    cases h1
  · intro d
    simp only [restoreSession]
    by_cases h : savedAtTruthy d.savedAt = true ∧
        now - d.savedAt.getD 0 > 4 * 60 * 60 * 1000
    · rw [if_pos h]; simpa using h
    · rw [if_neg h]; simpa using h

/-- Witness for `restoreSession_falsy_savedAt`: a snapshot with `savedAt`
absent is accepted at an arbitrarily late `now`. -/
theorem restoreSession_falsy_savedAt_witness :
    restoreSession freshSession 99999999999
      (some { staleSnap with savedAt := none }) =
      (true, loadSnapshot freshSession { staleSnap with savedAt := none }) :=
  (restoreSession_falsy_savedAt freshSession 99999999999).1
    { staleSnap with savedAt := none } rfl

-- ════════════════════════════════════════════════════════════════
-- SmartProxyManager (src/http-engine.js lines 340-400)
-- ════════════════════════════════════════════════════════════════

/-- JS `a.includes(b)` for strings (character-level). -/
def jsIncludes (s sub : String) : Bool :=
  decide (sub.data <:+: s.data)

/-- One proxy identity with its runtime health state. `avgLatency` is kept
as an exact rational; the claims under verification only compare stored
latencies, they do not depend on float rounding. -/
structure Proxy where
  url : String
  index : Nat
  bans : Nat
  lastBan : Int
  requests : Nat
  avgLatency : ℚ
  alive : Bool
deriving DecidableEq

/-- `new SmartProxyManager(proxyList)`: initial pool. -/
def initProxies (proxyList : List String) : List Proxy :=
  (proxyList.zip (List.range proxyList.length)).map fun pi =>
    { url := if jsIncludes pi.1 "://" then pi.1 else "http://" ++ pi.1
      index := pi.2
      bans := 0
      lastBan := 0
      requests := 0
      avgLatency := 0
      alive := true }

/-- The availability filter of `getNext`: alive and out of the 30s ban
cooldown. -/
def proxyAvailable (now : Int) (p : Proxy) : Bool :=
  p.alive && decide (now - p.lastBan > 30000)

/-- `getNext`'s sort comparator `(a, b) => a.bans !== b.bans ?
a.bans - b.bans : a.avgLatency - b.avgLatency` as a `≤`-style test. -/
def proxyLe (a b : Proxy) : Bool :=
  if a.bans = b.bans then decide (a.avgLatency ≤ b.avgLatency)
  else decide (a.bans < b.bans)

/-- The comparator lifted to indexed proxies (JS sorts object references;
the index tracks which pool slot each reference came from). -/
def proxyRel (a b : Nat × Proxy) : Prop := proxyLe a.2 b.2 = true

instance : DecidableRel proxyRel := fun a b => by
  unfold proxyRel; infer_instance

instance : IsTotal (Nat × Proxy) proxyRel where
  total a b := by
    unfold proxyRel proxyLe
    rcases eq_or_ne a.2.bans b.2.bans with h | h
    · rw [if_pos h, if_pos h.symm]
      rcases le_total a.2.avgLatency b.2.avgLatency with hl | hl
      · exact Or.inl (by simpa using hl)
      · exact Or.inr (by simpa using hl)
    · rw [if_neg h, if_neg (Ne.symm h)]
      rcases Nat.lt_or_ge a.2.bans b.2.bans with hl | hl
      · exact Or.inl (by simpa using hl)
      · refine Or.inr ?_
        simp only [decide_eq_true_eq]
        omega

instance : IsTrans (Nat × Proxy) proxyRel where
  trans a b c hab hbc := by
    unfold proxyRel proxyLe at hab hbc ⊢
    by_cases h1 : a.2.bans = b.2.bans <;> by_cases h2 : b.2.bans = c.2.bans
    · rw [if_pos h1] at hab; rw [if_pos h2] at hbc
      rw [if_pos (h1.trans h2)]
      simp only [decide_eq_true_eq] at hab hbc ⊢
      exact le_trans hab hbc
    · rw [if_pos h1] at hab; rw [if_neg h2] at hbc
      rw [if_neg (show ¬ a.2.bans = c.2.bans by omega)]
      simp only [decide_eq_true_eq] at hbc ⊢
      omega
    · rw [if_neg h1] at hab; rw [if_pos h2] at hbc
      rw [if_neg (show ¬ a.2.bans = c.2.bans by omega)]
      simp only [decide_eq_true_eq] at hab ⊢
      omega
    · rw [if_neg h1] at hab; rw [if_neg h2] at hbc
      simp only [decide_eq_true_eq] at hab hbc
      rw [if_neg (show ¬ a.2.bans = c.2.bans by omega)]
      simp only [decide_eq_true_eq]
      omega

/-- List enumeration with explicit start index (structural, for proofs). -/
def enumL {α : Type} : Nat → List α → List (Nat × α)
  | _, [] => []
  | i, x :: xs => (i, x) :: enumL (i + 1) xs

theorem mem_of_mem_enumL {α : Type} {i n : Nat} {x : α} :
    ∀ {l : List α}, (i, x) ∈ enumL n l → x ∈ l := by
  intro l
  induction l generalizing n with
  | nil => intro h; cases h
  | cons y ys ih =>
      intro h
      rcases List.mem_cons.mp h with h' | h'
      · cases h'; exact List.mem_cons_self _ _
      · exact List.mem_cons_of_mem _ (ih h')

/-- The field reset applied to every proxy when the whole pool is
exhausted (`p.alive = true; p.bans = 0`). -/
def resetProxy (p : Proxy) : Proxy := { p with alive := true, bans := 0 }

/-- `SmartProxyManager.getNext()`: returns the chosen proxy (with its
request counter bumped) together with the pool state after the call.
`now` is `Date.now()`. -/
def getNext (pool : List Proxy) (now : Int) : Option Proxy × List Proxy :=
  if pool.length = 0 then (none, pool)
  else if ((enumL 0 pool).filter
      (fun ip => proxyAvailable now ip.2)).length = 0 then
    ((pool.map resetProxy).head?, pool.map resetProxy)
  else
    match List.insertionSort proxyRel
        ((enumL 0 pool).filter (fun ip => proxyAvailable now ip.2)) with
    | [] => (none, pool)
    | (i, p) :: _ =>
        (some { p with requests := p.requests + 1 },
         pool.set i { p with requests := p.requests + 1 })

/-- The mutation `reportBan` applies to the found proxy entry:
`bans++; lastBan = now; if (bans >= 3) alive = false`. -/
def banStep (p : Proxy) (now : Int) : Proxy :=
  { p with
    bans := p.bans + 1
    lastBan := now
    alive := if p.bans + 1 ≥ 3 then false else p.alive }

/-- `SmartProxyManager.reportBan(proxyUrl)`: bump the ban count and ban
timestamp of the first pool entry with that url; at 3 cumulative bans the
entry is marked dead. -/
def reportBan (pool : List Proxy) (proxyUrl : String) (now : Int) :
    List Proxy :=
  match pool with
  | [] => []
  | p :: rest =>
      if p.url = proxyUrl then banStep p now :: rest
      else p :: reportBan rest proxyUrl now

/-- `SmartProxyManager.reportSuccess(proxyUrl, latencyMs)`: exponential
moving average of latency on the first entry with that url. -/
def reportSuccess (pool : List Proxy) (proxyUrl : String) (latencyMs : ℚ) :
    List Proxy :=
  match pool with
  | [] => []
  | p :: rest =>
      if p.url = proxyUrl then
        { p with
          avgLatency := if p.avgLatency = 0 then latencyMs
                        else p.avgLatency * (7 / 10) + latencyMs * (3 / 10) }
          :: rest
      else p :: reportSuccess rest proxyUrl latencyMs

-- Proxy-manager lemmas ----------------------------------------------------

theorem exists_mem_enumL {α : Type} {x : α} :
    ∀ {l : List α} (n : Nat), x ∈ l → ∃ i, (i, x) ∈ enumL n l := by
  intro l
  induction l with
  | nil => intro n h; cases h
  | cons y ys ih =>
      intro n h
      rcases List.mem_cons.mp h with rfl | h'
      · exact ⟨n, List.mem_cons_self _ _⟩
      · obtain ⟨i, hi⟩ := ih (n + 1) h'
        exact ⟨i, List.mem_cons_of_mem _ hi⟩

theorem proxyLe_refl (p : Proxy) : proxyLe p p = true := by
  simp [proxyLe]

/-- Three consecutive `reportBan`s on url `u` leave every entry of a
duplicate-free pool that carries url `u` dead. -/
theorem reportBan_three_kills {u : String} :
    ∀ (pool : List Proxy) (t₁ t₂ t₃ : Int),
    (pool.map Proxy.url).Nodup →
    ∀ q ∈ reportBan (reportBan (reportBan pool u t₁) u t₂) u t₃,
    q.url = u → q.alive = false := by
  intro pool
  induction pool with
  | nil => intro t₁ t₂ t₃ _ q hq; simp [reportBan] at hq
  | cons p rest ih =>
      intro t₁ t₂ t₃ hnd q hq hu
      by_cases hp : p.url = u
      · have h1 : reportBan (p :: rest) u t₁ = banStep p t₁ :: rest := by
          simp [reportBan, hp]
        have h2 : reportBan (banStep p t₁ :: rest) u t₂ =
            banStep (banStep p t₁) t₂ :: rest := by
          simp [reportBan, banStep, hp]
        have h3 : reportBan (banStep (banStep p t₁) t₂ :: rest) u t₃ =
            banStep (banStep (banStep p t₁) t₂) t₃ :: rest := by
          simp [reportBan, banStep, hp]
        rw [h1, h2, h3] at hq
        rcases List.mem_cons.mp hq with rfl | hq'
        · simp [banStep]
        · exfalso
          have hsplit : (∀ x ∈ rest, ¬ x.url = p.url) ∧
              (List.map Proxy.url rest).Nodup := by simpa using hnd
          exact hsplit.1 q hq' (by rw [hu, hp])
      · have h1 : reportBan (p :: rest) u t₁ = p :: reportBan rest u t₁ := by
          simp [reportBan, hp]
        have h2 : reportBan (p :: reportBan rest u t₁) u t₂ =
            p :: reportBan (reportBan rest u t₁) u t₂ := by
          simp [reportBan, hp]
        have h3 : reportBan (p :: reportBan (reportBan rest u t₁) u t₂) u t₃ =
            p :: reportBan (reportBan (reportBan rest u t₁) u t₂) u t₃ := by
          simp [reportBan, hp]
        rw [h1, h2, h3] at hq
        rcases List.mem_cons.mp hq with rfl | hq'
        · exact absurd hu hp
        · have hsplit : (∀ x ∈ rest, ¬ x.url = p.url) ∧
              (List.map Proxy.url rest).Nodup := by simpa using hnd
          exact ih t₁ t₂ t₃ hsplit.2 q hq' hu

/-- When some pool entry is available, `getNext` picks an available entry
of the pool that is minimal for the (bans, avgLatency) comparator; the
returned record is that entry with its request counter bumped. -/
theorem getNext_chosen_spec {pool : List Proxy} {now : Int} {chosen : Proxy}
    {pool' : List Proxy} (hget : getNext pool now = (some chosen, pool'))
    (hsome : ∃ q ∈ pool, proxyAvailable now q = true) :
    ∃ p, chosen = { p with requests := p.requests + 1 } ∧ p ∈ pool ∧
      proxyAvailable now p = true ∧
      ∀ r ∈ pool, proxyAvailable now r = true → proxyLe p r = true := by
  obtain ⟨q, hq, hav⟩ := hsome
  have hlen : ¬ pool.length = 0 := by
    intro h; rw [List.length_eq_zero] at h; subst h; cases hq
  obtain ⟨iq, hiq⟩ := exists_mem_enumL 0 hq
  have hqf : (iq, q) ∈ (enumL 0 pool).filter
      (fun ip => proxyAvailable now ip.2) :=
    List.mem_filter.mpr ⟨hiq, hav⟩
  have hflen : ¬ ((enumL 0 pool).filter
      (fun ip => proxyAvailable now ip.2)).length = 0 := by
    intro h; rw [List.length_eq_zero] at h; rw [h] at hqf; cases hqf
  unfold getNext at hget
  rw [if_neg hlen, if_neg hflen] at hget
  cases hs : List.insertionSort proxyRel
      ((enumL 0 pool).filter (fun ip => proxyAvailable now ip.2)) with
  | nil =>
      exfalso
      have hperm := List.perm_insertionSort proxyRel
        ((enumL 0 pool).filter (fun ip => proxyAvailable now ip.2))
      rw [hs] at hperm
      rw [← hperm.length_eq] at hflen
      exact hflen rfl
  | cons hd tl =>
      obtain ⟨i, p⟩ := hd
      rw [hs] at hget
      simp only [Prod.mk.injEq, Option.some.injEq] at hget
      refine ⟨p, hget.1.symm, ?_, ?_, ?_⟩
      · have : (i, p) ∈ (enumL 0 pool).filter
            (fun ip => proxyAvailable now ip.2) := by
          have hperm := List.perm_insertionSort proxyRel
            ((enumL 0 pool).filter (fun ip => proxyAvailable now ip.2))
          rw [hs] at hperm
          exact hperm.mem_iff.mp (List.mem_cons_self _ _)
        exact mem_of_mem_enumL (List.mem_filter.mp this).1
      · have : (i, p) ∈ (enumL 0 pool).filter
            (fun ip => proxyAvailable now ip.2) := by
          have hperm := List.perm_insertionSort proxyRel
            ((enumL 0 pool).filter (fun ip => proxyAvailable now ip.2))
          rw [hs] at hperm
          exact hperm.mem_iff.mp (List.mem_cons_self _ _)
        exact (List.mem_filter.mp this).2
      · intro r hr hrav
        obtain ⟨jr, hjr⟩ := exists_mem_enumL 0 hr
        have hrf : (jr, r) ∈ (enumL 0 pool).filter
            (fun ip => proxyAvailable now ip.2) :=
          List.mem_filter.mpr ⟨hjr, hrav⟩
        have hrs : (jr, r) ∈ (i, p) :: tl := by
          have hperm := List.perm_insertionSort proxyRel
            ((enumL 0 pool).filter (fun ip => proxyAvailable now ip.2))
          rw [hs] at hperm
          exact hperm.mem_iff.mpr hrf
        rcases List.mem_cons.mp hrs with heq | htl
        · cases heq; exact proxyLe_refl p
        · have hsorted := List.sorted_insertionSort proxyRel
            ((enumL 0 pool).filter (fun ip => proxyAvailable now ip.2))
          rw [hs] at hsorted
          exact (List.pairwise_cons.mp hsorted).1 (jr, r) htl

/-- **C6.** Proxy ban exclusion and pool reset:
(1) after `reportBan` has been called 3 times for identity `u` in a
duplicate-free pool, `getNext` never returns an identity with url `u`
while any available (alive, out of cooldown) identity remains;
(2) once no identity is available, `getNext` resets ALL ban state (alive
flags and ban counts) and returns the pool's first identity;
(3) among available identities the chosen one has a minimal ban count,
tie-broken by lower rolling-average latency. -/
theorem proxy_ban_exclusion_reset_preference :
    (∀ (pool : List Proxy) (u : String) (t₁ t₂ t₃ now : Int),
      (pool.map Proxy.url).Nodup →
      ∀ q ∈ reportBan (reportBan (reportBan pool u t₁) u t₂) u t₃,
        proxyAvailable now q = true →
      ∀ chosen pool',
        getNext (reportBan (reportBan (reportBan pool u t₁) u t₂) u t₃) now =
          (some chosen, pool') → chosen.url ≠ u) ∧
    (∀ (pool : List Proxy) (now : Int) (hne : pool ≠ []),
      (∀ p ∈ pool, proxyAvailable now p = false) →
      getNext pool now =
        (some (resetProxy (pool.head hne)), pool.map resetProxy) ∧
      ∀ p' ∈ pool.map resetProxy, p'.alive = true ∧ p'.bans = 0) ∧
    (∀ (pool : List Proxy) (now : Int) (chosen : Proxy)
      (pool' : List Proxy),
      getNext pool now = (some chosen, pool') →
      (∃ q ∈ pool, proxyAvailable now q = true) →
      ∀ r ∈ pool, proxyAvailable now r = true →
        chosen.bans < r.bans ∨
          (chosen.bans = r.bans ∧ chosen.avgLatency ≤ r.avgLatency)) ∧
    (∀ (pool : List Proxy) (u : String) (t : Int),
      (∀ q ∈ pool, q.url = u → q.alive = false) →
      ∀ q' ∈ reportBan pool u t, q'.url = u → q'.alive = false) := by
  refine ⟨?_, ?_, ?_, ?_⟩
  · intro pool u t₁ t₂ t₃ now hnd q hq hav chosen pool' hget
    obtain ⟨p, hchosen, hp, hpav, _⟩ :=
      getNext_chosen_spec hget ⟨q, hq, hav⟩
    intro hurl
    have hpu : p.url = u := by rw [hchosen] at hurl; exact hurl
    have hdead : p.alive = false :=
      reportBan_three_kills pool t₁ t₂ t₃ hnd p hp hpu
    have : p.alive = true := (Bool.and_eq_true _ _ |>.mp hpav).1
    rw [hdead] at this; cases this
  · intro pool now hne hnone
    have hlen : ¬ pool.length = 0 := by
      intro h; exact hne (List.length_eq_zero.mp h)
    have hfilter : (enumL 0 pool).filter
        (fun ip => proxyAvailable now ip.2) = [] := by
      rw [List.filter_eq_nil]
      intro ip hip
      have := hnone ip.2 (mem_of_mem_enumL (by exact hip))
      simp [this]
    constructor
    · unfold getNext
      rw [if_neg hlen, hfilter]
      simp only [List.length_nil, if_pos]
      cases pool with
      | nil => exact absurd rfl hne
      | cons x xs => simp [resetProxy]
    · intro p' hp'
      obtain ⟨p, _, rfl⟩ := List.mem_map.mp hp'
      exact ⟨rfl, rfl⟩
  · intro pool now chosen pool' hget hsome r hr hrav
    obtain ⟨p, hchosen, _, _, hmin⟩ := getNext_chosen_spec hget hsome
    have hle := hmin r hr hrav
    unfold proxyLe at hle
    rw [hchosen]
    by_cases h : p.bans = r.bans
    · rw [if_pos h] at hle
      simp only [decide_eq_true_eq] at hle
      exact Or.inr ⟨h, hle⟩
    · rw [if_neg h] at hle
      simp only [decide_eq_true_eq] at hle
      exact Or.inl hle
  · intro pool u t
    induction pool with
    | nil => intro _ q' hq'; simp [reportBan] at hq'
    | cons p rest ih =>
        intro hdead q' hq' hu'
        by_cases hp : p.url = u
        · rw [show reportBan (p :: rest) u t = banStep p t :: rest by
            simp [reportBan, hp]] at hq'
          rcases List.mem_cons.mp hq' with rfl | hq''
          · have hpa : p.alive = false :=
              hdead p (List.mem_cons_self _ _) hp
            simp [banStep, hpa]
          · exact hdead q' (List.mem_cons_of_mem _ hq'') hu'
        · rw [show reportBan (p :: rest) u t = p :: reportBan rest u t by
            simp [reportBan, hp]] at hq'
          rcases List.mem_cons.mp hq' with rfl | hq''
          · exact hdead q' (List.mem_cons_self _ _) hu'
          · exact ih (fun q hq hqu =>
              hdead q (List.mem_cons_of_mem _ hq) hqu) q' hq'' hu'

/-- A concrete three-proxy pool for the `getNext` witnesses. -/
def samplePool : List Proxy :=
  initProxies ["p1.example:80", "p2.example:80", "p3.example:80"]

/-- Witness for `proxy_ban_exclusion_reset_preference` at concrete pools:
after three bans on the first proxy it is never chosen while others are
available; a fully-banned pool resets and yields index zero; and the
chosen proxy among available ones is (bans, latency)-minimal. -/
theorem proxy_ban_exclusion_reset_preference_witness :
    ((getNext (reportBan (reportBan (reportBan samplePool "http://p1.example:80" 1) "http://p1.example:80" 2) "http://p1.example:80" 3) 40000).1.map
        Proxy.url ≠ some "http://p1.example:80") ∧
    (getNext (samplePool.map (fun p => { p with alive := false })) 0).2.map
        Proxy.bans = [0, 0, 0] := by
  constructor
  · intro hcontra
    cases hget : (getNext (reportBan (reportBan (reportBan samplePool "http://p1.example:80" 1) "http://p1.example:80" 2) "http://p1.example:80" 3) 40000) with
    | mk fst snd =>
        cases fst with
        | none => rw [hget] at hcontra; cases hcontra
        | some chosen =>
            have hurl : chosen.url ≠ "http://p1.example:80" :=
              proxy_ban_exclusion_reset_preference.1 samplePool
                "http://p1.example:80" 1 2 3 40000 (by decide)
                { url := "http://p2.example:80", index := 1, bans := 0,
                  lastBan := 0, requests := 0, avgLatency := 0,
                  alive := true }
                (by decide) (by decide) chosen snd hget
            rw [hget] at hcontra
            simp only [Option.map_some', Option.some.injEq] at hcontra
            exact hurl hcontra
  · have h := (proxy_ban_exclusion_reset_preference.2.1
      (samplePool.map (fun p => { p with alive := false })) 0
      (by decide) (by decide)).1
    rw [h]
    decide

-- ════════════════════════════════════════════════════════════════
-- Address jigging (src/fleet-runner.js AddressJigger;
-- src/fast-checkout.js FastCheckout.jigAddress)
-- ════════════════════════════════════════════════════════════════

/-- Checkout address details. JS fields that may be `undefined` are coerced
to `""` at every use site (`x || ''`), so plain strings with `""` as the
absent value are a faithful model. -/
structure Address where
  firstName : String
  lastName : String
  address : String
  address2 : String
  city : String
  county : String
  state : String
  zip : String
  country : String
  phone : String
  email : String
deriving DecidableEq

/-- JS `s.toUpperCase()` (ASCII, per `Char.toUpper`). -/
def jsToUpper (s : String) : String := String.mk (s.data.map Char.toUpper)

/-- JS `s.toLowerCase()` (ASCII, per `Char.toLower`). -/
def jsToLower (s : String) : String := String.mk (s.data.map Char.toLower)

/-- JS `s.charAt(0)` as a string. -/
def jsHeadCharStr (s : String) : String :=
  match s.data with
  | [] => ""
  | c :: _ => String.mk [c]

/-- JS `s.charAt(0).toUpperCase()`. -/
def capFirst0 (s : String) : String :=
  match s.data with
  | [] => ""
  | c :: _ => String.mk [c.toUpper]

/-- JS `s.charAt(0).toUpperCase() + s.slice(1)`. -/
def capitalizeJS (s : String) : String :=
  match s.data with
  | [] => ""
  | c :: cs => String.mk (c.toUpper :: cs)

/-- JS `s.slice(1).toLowerCase()`. -/
def jsSliceFrom1Lower (s : String) : String :=
  String.mk ((s.data.drop 1).map Char.toLower)

/-- JS `s.replace(/[…]$/, '')` for a set of single trailing characters:
removes the last character when it is in `punct`. -/
def stripTrailingOnce (punct : List Char) (s : String) : String :=
  match s.data.reverse with
  | [] => s
  | c :: rest => if c ∈ punct then String.mk rest.reverse else s

/-- JS `s.replace(/[.,]+$/, '')`: strip the maximal trailing run of
periods and commas. -/
def stripTrailingPunctRun (s : String) : String :=
  String.mk ((s.data.reverse.dropWhile (fun c => c = '.' ∨ c = ',')).reverse)

/-- The worker behind JS `s.split(/\s+/)`: split on maximal whitespace
runs, keeping the leading/trailing empty pieces JS produces. `inSep` is
true while consuming a separator run that has already emitted its piece. -/
def splitWsAux : List Char → List Char → Bool → List (List Char)
  | [], acc, _ => [acc.reverse]
  | c :: cs, acc, inSep =>
      if c.isWhitespace then
        if inSep then splitWsAux cs acc true
        else acc.reverse :: splitWsAux cs [] true
      else splitWsAux cs (c :: acc) false

/-- JS `s.split(/\s+/)`. -/
def jsSplitWs (s : String) : List String :=
  (splitWsAux s.data [] false).map String.mk

/-- Map with a running element index (for loops indexed over `words`). -/
def mapWithIndex {α β : Type} (f : Nat → α → β) : Nat → List α → List β
  | _, [] => []
  | i, x :: xs => f i x :: mapWithIndex f (i + 1) xs

/-- JS `addr.match(/^(\d+)\s+(.+)/)`: leading digit run, at least one
whitespace, then a nonempty remainder (with regex backtracking when the
string ends in whitespace; `.` is modeled as any character). -/
def matchNumRest (s : String) : Option (String × String) :=
  let ds := s.data.takeWhile Char.isDigit
  if ds.length = 0 then none
  else
    let rest0 := s.data.drop ds.length
    let ws := rest0.takeWhile Char.isWhitespace
    if ws.length = 0 then none
    else
      let after := rest0.drop ws.length
      if after.length = 0 then
        if ws.length ≥ 2 then
          some (String.mk ds, String.mk (rest0.drop (ws.length - 1)))
        else none
      else some (String.mk ds, String.mk after)

/-- `STREET_TYPES` table (fleet-runner.js). -/
def STREET_TYPES : List (String × List String) :=
  [("street", ["street", "st", "st.", "str"]),
   ("st", ["street", "st", "st.", "str"]),
   ("st.", ["street", "st", "st.", "str"]),
   ("road", ["road", "rd", "rd."]),
   ("rd", ["road", "rd", "rd."]),
   ("rd.", ["road", "rd", "rd."]),
   ("avenue", ["avenue", "ave", "ave.", "av"]),
   ("ave", ["avenue", "ave", "ave.", "av"]),
   ("ave.", ["avenue", "ave", "ave.", "av"]),
   ("drive", ["drive", "dr", "dr."]),
   ("dr", ["drive", "dr", "dr."]),
   ("lane", ["lane", "ln", "ln."]),
   ("ln", ["lane", "ln", "ln."]),
   ("close", ["close", "cl", "cl."]),
   ("cl", ["close", "cl", "cl."]),
   ("court", ["court", "ct", "ct."]),
   ("ct", ["court", "ct", "ct."]),
   ("place", ["place", "pl", "pl."]),
   ("pl", ["place", "pl", "pl."]),
   ("terrace", ["terrace", "terr", "ter"]),
   ("crescent", ["crescent", "cres", "cr"]),
   ("gardens", ["gardens", "gdns", "gdn"]),
   ("grove", ["grove", "gr", "grv"]),
   ("way", ["way", "wy"]),
   ("park", ["park", "pk"]),
   ("hill", ["hill", "hl"]),
   ("square", ["square", "sq", "sq."]),
   ("boulevard", ["boulevard", "blvd", "blvd."])]

/-- `UNIT_PREFIXES` table (fleet-runner.js). -/
def UNIT_PREFIXES : List (String × List String) :=
  [("flat", ["flat", "fl", "flt", "unit", "apt"]),
   ("fl", ["flat", "fl", "flt", "unit", "apt"]),
   ("flt", ["flat", "fl", "flt", "unit", "apt"]),
   ("unit", ["unit", "flat", "fl", "apt"]),
   ("apt", ["apt", "apt.", "apartment", "flat", "unit"]),
   ("apartment", ["apartment", "apt", "apt.", "flat", "unit"])]

/-- `DIRECTIONS` table (fleet-runner.js). -/
def DIRECTIONS : List (String × List String) :=
  [("north", ["north", "n", "n."]),
   ("n", ["north", "n", "n."]),
   ("south", ["south", "s", "s."]),
   ("s", ["south", "s", "s."]),
   ("east", ["east", "e", "e."]),
   ("e", ["east", "e", "e."]),
   ("west", ["west", "w", "w."]),
   ("w", ["west", "w", "w."])]

/-- The JS test `words[i][0] === words[i][0].toUpperCase()` (only evaluated
on nonempty words in the source). -/
def isFirstUpper (w : String) : Bool :=
  match w.data with
  | [] => true
  | c :: _ => c.toUpper = c

namespace AddressJigger

/-- Street-type replacement half of `_jigStreetAddress`'s word loop. -/
def jigWordStreet (seed i : Nat) (w : String) : String :=
  match jsObjGet STREET_TYPES
      (stripTrailingOnce ['.', ','] (jsToLower w)) with
  | some variants =>
      if isFirstUpper w then
        capitalizeJS (variants.getD ((seed + i) % variants.length) "")
      else variants.getD ((seed + i) % variants.length) ""
  | none => w

/-- Direction replacement half of the word loop (applied to the possibly
street-replaced word). -/
def jigWordDir (seed i : Nat) (w1 : String) : String :=
  match jsObjGet DIRECTIONS (stripTrailingOnce ['.'] (jsToLower w1)) with
  | some variants =>
      if isFirstUpper w1 then
        capitalizeJS (variants.getD ((seed + i + 1) % variants.length) "")
      else variants.getD ((seed + i + 1) % variants.length) ""
  | none => w1

/-- The per-word body of `_jigStreetAddress`'s loop: street-type
replacement, then direction replacement on the (possibly updated) word. -/
def jigWord (seed i : Nat) (w : String) : String :=
  jigWordDir seed i (jigWordStreet seed i w)

/-- The street-number step of `_jigStreetAddress`
(`match(/^(\d+)\s+(.+)/)` plus the variant table). -/
def jigStreetNum (seed : Nat) (addr : String) : String :=
  match matchNumRest addr with
  | some (num, rest) =>
      ([num, num ++ ".", "0" ++ num, "#" ++ num].getD (seed % 4) "") ++
        " " ++ rest
  | none => addr

/-- The case-variation step of `_jigStreetAddress` (every 5th bot). -/
def jigStreetCase (seed : Nat) (r1 : String) : String :=
  if seed % 5 = 1 then jsToUpper r1
  else if seed % 5 = 2 then jsToLower r1
  else r1

/-- The trailing-punctuation step of `_jigStreetAddress`. -/
def jigStreetFinish (seed : Nat) (r2 : String) : String :=
  if seed % 3 = 1 ∧ ¬ jsEndsWith r2 "." then r2 ++ "."
  else if seed % 3 = 2 then stripTrailingPunctRun r2
  else r2

/-- `AddressJigger._jigStreetAddress(addr, seed)`: the statement sequence
number-variant, word loop (split/join), case variation, punctuation. -/
def jigStreetAddress (addr : String) (seed : Nat) : String :=
  if addr = "" then addr
  else
    jigStreetFinish seed (jigStreetCase seed (joinSep " "
      (mapWithIndex (jigWord seed) 0 (jsSplitWs (jigStreetNum seed addr)))))

/-- First occurrence of JS `replace(/(\D)\s+(\d)/, '$1$2')`. -/
def replaceNonDigitWsDigit : List Char → List Char
  | [] => []
  | c :: cs =>
      if c.isDigit then c :: replaceNonDigitWsDigit cs
      else
        let ws := cs.takeWhile Char.isWhitespace
        if ws.length = 0 then c :: replaceNonDigitWsDigit cs
        else
          match cs.drop ws.length with
          | d :: rest =>
              if d.isDigit then c :: d :: rest
              else c :: replaceNonDigitWsDigit cs
          | [] => c :: replaceNonDigitWsDigit cs

/-- First occurrence of JS `replace(/(\D)(\d)/, '$1 $2')`. -/
def replaceNonDigitDigit : List Char → List Char
  | [] => []
  | c :: cs =>
      if c.isDigit then c :: replaceNonDigitDigit cs
      else
        match cs with
        | d :: rest =>
            if d.isDigit then c :: ' ' :: d :: rest
            else c :: replaceNonDigitDigit cs
        | [] => [c]

/-- `AddressJigger._jigAddressLine2(addr2, addr1, seed)` (the source never
reads `addr1`). -/
def jigAddressLine2 (addr2 : String) (_addr1 : String) (seed : Nat) :
    String :=
  if addr2 = "" then
    let fillers := ["", ".", ",", "-"]
    fillers.getD (seed % fillers.length) ""
  else
    let words' := match jsSplitWs addr2 with
      | [] => []
      | w :: rest =>
          (match jsObjGet UNIT_PREFIXES
              (stripTrailingOnce ['.', ','] (jsToLower w)) with
           | some variants =>
               capitalizeJS (variants.getD (seed % variants.length) "")
           | none => w) :: rest
    let r0 := joinSep " " words'
    let r1 := if seed % 4 = 1 then String.mk (replaceNonDigitWsDigit r0.data)
              else r0
    let r2 := if seed % 4 = 2 then String.mk (replaceNonDigitDigit r1.data)
              else r1
    if seed % 6 = 3 then jsToUpper r2
    else if seed % 6 = 4 then jsToLower r2
    else r2

/-- The `variants` array of `_jigFirstName`. -/
def firstNameVariants (name : String) : List String :=
  [name,
   capFirst0 name ++ ".",
   capFirst0 name,
   jsToUpper name,
   jsToLower name,
   capFirst0 name ++ jsSliceFrom1Lower name]

/-- `AddressJigger._jigFirstName(name, seed)`. -/
def jigFirstName (name : String) (seed : Nat) : String :=
  if name = "" then name
  else (firstNameVariants name).getD
    (seed % (firstNameVariants name).length) ""

/-- The `variants` array of `_jigLastName`. -/
def lastNameVariants (name : String) : List String :=
  [name,
   jsToUpper name,
   jsToLower name,
   capFirst0 name ++ jsSliceFrom1Lower name]

/-- `AddressJigger._jigLastName(name, seed)`. -/
def jigLastName (name : String) (seed : Nat) : String :=
  if name = "" then name
  else (lastNameVariants name).getD
    (seed % (lastNameVariants name).length) ""

/-- `zip.replace(/\s+/g, '').toUpperCase()` inside `_jigPostcode`. -/
def postcodeClean (zip : String) : String :=
  String.mk ((zip.data.filter (fun c => ¬ c.isWhitespace)).map Char.toUpper)

/-- The `variants` array of `_jigPostcode`. -/
def postcodeVariants (zip : String) : List String :=
  [zip,
   postcodeClean zip,
   if (postcodeClean zip).data.length > 3 then
     String.mk ((postcodeClean zip).data.take
       ((postcodeClean zip).data.length - 3)) ++ " " ++
       String.mk ((postcodeClean zip).data.drop
         ((postcodeClean zip).data.length - 3))
   else postcodeClean zip,
   jsToLower zip,
   jsToLower (postcodeClean zip)]

/-- `AddressJigger._jigPostcode(zip, seed)`. -/
def jigPostcode (zip : String) (seed : Nat) : String :=
  if zip = "" then zip
  else (postcodeVariants zip).getD
    (seed % (postcodeVariants zip).length) ""

/-- The `variants` array of `_jigCity`. -/
def cityVariants (city : String) : List String :=
  [city,
   jsToUpper city,
   jsToLower city,
   capFirst0 city ++ jsSliceFrom1Lower city]

/-- `AddressJigger._jigCity(city, seed)`. -/
def jigCity (city : String) (seed : Nat) : String :=
  if city = "" then city
  else (cityVariants city).getD (seed % (cityVariants city).length) ""

/-- `phone.replace(/\D/g, '')` inside `_jigPhone`. -/
def phoneDigits (phone : String) : List Char :=
  phone.data.filter Char.isDigit

/-- The `variants` array of `_jigPhone` (only reached when the digit count
is at least 10). `slice(a, b)` with negative offsets is expanded with the
digit-list length. -/
def phoneVariants (phone : String) : List String :=
  [phone,
   String.mk (phoneDigits phone),
   if (phoneDigits phone).take 2 = ['4', '4'] then
     String.mk ('0' :: (phoneDigits phone).drop 2)
   else String.mk (phoneDigits phone),
   "+44 " ++ String.mk (((phoneDigits phone).drop
       ((phoneDigits phone).length - 10)).take 3) ++ " " ++
     String.mk (((phoneDigits phone).drop
       ((phoneDigits phone).length - 7)).take 3) ++ " " ++
     String.mk ((phoneDigits phone).drop ((phoneDigits phone).length - 4)),
   "0" ++ String.mk (((phoneDigits phone).drop
       ((phoneDigits phone).length - 10)).take 4) ++ " " ++
     String.mk ((phoneDigits phone).drop ((phoneDigits phone).length - 6)),
   "(0" ++ String.mk (((phoneDigits phone).drop
       ((phoneDigits phone).length - 10)).take 3) ++ ") " ++
     String.mk ((phoneDigits phone).drop ((phoneDigits phone).length - 7))]

/-- `AddressJigger._jigPhone(phone, seed)`. -/
def jigPhone (phone : String) (seed : Nat) : String :=
  if phone = "" then phone
  else if (phoneDigits phone).length < 10 then phone
  else (phoneVariants phone).getD
    (seed % (phoneVariants phone).length) ""

/-- `AddressJigger.jig(address, index)`: index 0 returns a field-for-field
copy; otherwise every jiggable field is derived deterministically with
`seed = index`. -/
def jig (a : Address) (index : Nat) : Address :=
  if index = 0 then a
  else
    let seed := index
    { a with
      address := jigStreetAddress a.address seed
      address2 := jigAddressLine2 a.address2 a.address seed
      firstName := jigFirstName a.firstName seed
      lastName := jigLastName a.lastName seed
      zip := jigPostcode a.zip seed
      city := jigCity a.city seed
      phone := jigPhone a.phone seed }

end AddressJigger

namespace FastCheckout

/-- The `suffixes` array of `FastCheckout.jigAddress` (50 entries). -/
def suffixes : List String :=
  ["", "Apt 1", "Apt 2", "Apt A", "Apt B", "Suite 1", "Unit 1", "Ste 2",
   "#1", "#2",
   "Apt 3", "Apt C", "Suite 3", "Unit 2", "Ste 1", "#3", "Apt 4", "Apt D",
   "Suite 4", "Unit 3",
   "Fl 1", "Fl 2", "Rm 1", "Rm 2", "Box 1", "Box 2", "Dept 1", "Dept 2",
   "Bldg A", "Bldg B",
   "Apt 5", "Apt E", "Suite 5", "Unit 4", "Ste 3", "#4", "Apt 6", "Apt F",
   "Suite 6", "Unit 5",
   "Fl 3", "Fl 4", "Rm 3", "Rm 4", "Box 3", "Box 4", "Dept 3", "Dept 4",
   "Bldg C", "Bldg D"]

/-- `jigged.address2 = suffixes[taskIndex % suffixes.length]`. -/
def jigAddrStep1 (taskIndex : Nat) (d : Address) : Address :=
  { d with address2 := suffixes.getD (taskIndex % suffixes.length) "" }

/-- `if (taskIndex % 3 === 1 && jigged.firstName) firstName = firstName.charAt(0) + "."`. -/
def jigAddrStep2 (taskIndex : Nat) (j1 : Address) : Address :=
  if taskIndex % 3 = 1 ∧ j1.firstName ≠ "" then
    { j1 with firstName := jsHeadCharStr j1.firstName ++ "." }
  else j1

/-- `if (taskIndex % 3 === 2 && jigged.lastName) lastName = lastName + "."`. -/
def jigAddrStep3 (taskIndex : Nat) (j2 : Address) : Address :=
  if taskIndex % 3 = 2 ∧ j2.lastName ≠ "" then
    { j2 with lastName := j2.lastName ++ "." }
  else j2

/-- `FastCheckout.jigAddress(details, taskIndex)`: task index 0 (or a null
`details`, not representable here) returns the input unchanged; otherwise
`address2` is overwritten with a suffix and the names get slight
deterministic variations. -/
def jigAddress (details : Address) (taskIndex : Nat) : Address :=
  if taskIndex = 0 then details
  else jigAddrStep3 taskIndex (jigAddrStep2 taskIndex
    (jigAddrStep1 taskIndex details))

end FastCheckout

-- Jigging lemmas ----------------------------------------------------------

/-- `s` contains a character that is neither `'.'` nor `','`. -/
def HasNonPunct (s : String) : Prop :=
  ∃ c ∈ s.data, c ≠ '.' ∧ c ≠ ','

instance (s : String) : Decidable (HasNonPunct s) := by
  unfold HasNonPunct; infer_instance

theorem string_ne_empty_of_data {s : String} (h : s.data ≠ []) : s ≠ "" := by
  intro hc; subst hc; exact h rfl

theorem data_ne_empty_of_ne {s : String} (h : s ≠ "") : s.data ≠ [] := by
  intro hc
  exact h (String.ext_iff.mpr (by simpa using hc))

theorem append_right_ne_empty (a : String) {b : String} (hb : b ≠ "") :
    a ++ b ≠ "" := by
  apply string_ne_empty_of_data
  rw [String.data_append]
  simp [data_ne_empty_of_ne hb]

theorem append_left_ne_empty {a : String} (ha : a ≠ "") (b : String) :
    a ++ b ≠ "" := by
  apply string_ne_empty_of_data
  rw [String.data_append]
  simp [data_ne_empty_of_ne ha]

theorem toNat_ofNat_valid {n : Nat} (h : n < 55296) :
    (Char.ofNat n).toNat = n := by
  unfold Char.ofNat
  rw [dif_pos (Or.inl h)]
  rfl

theorem toUpper_nonpunct {c : Char} (h1 : c ≠ '.') (h2 : c ≠ ',') :
    c.toUpper ≠ '.' ∧ c.toUpper ≠ ',' := by
  have he : c.toUpper = if c.toNat ≥ 97 ∧ c.toNat ≤ 122 then
      Char.ofNat (c.toNat - 32) else c := rfl
  rw [he]
  by_cases hc : c.toNat ≥ 97 ∧ c.toNat ≤ 122
  · rw [if_pos hc]
    constructor
    · intro heq
      have hn := congrArg Char.toNat heq
      rw [toNat_ofNat_valid (by omega),
        show ('.').toNat = 46 from rfl] at hn
      omega
    · intro heq
      have hn := congrArg Char.toNat heq
      rw [toNat_ofNat_valid (by omega),
        show (',').toNat = 44 from rfl] at hn
      omega
  · rw [if_neg hc]; exact ⟨h1, h2⟩

theorem toLower_nonpunct {c : Char} (h1 : c ≠ '.') (h2 : c ≠ ',') :
    c.toLower ≠ '.' ∧ c.toLower ≠ ',' := by
  have he : c.toLower = if c.toNat ≥ 65 ∧ c.toNat ≤ 90 then
      Char.ofNat (c.toNat + 32) else c := rfl
  rw [he]
  by_cases hc : c.toNat ≥ 65 ∧ c.toNat ≤ 90
  · rw [if_pos hc]
    constructor
    · intro heq
      have hn := congrArg Char.toNat heq
      rw [toNat_ofNat_valid (by omega),
        show ('.').toNat = 46 from rfl] at hn
      omega
    · intro heq
      have hn := congrArg Char.toNat heq
      rw [toNat_ofNat_valid (by omega),
        show (',').toNat = 44 from rfl] at hn
      omega
  · rw [if_neg hc]; exact ⟨h1, h2⟩

theorem jsToUpper_hasNonPunct {s : String} (h : HasNonPunct s) :
    HasNonPunct (jsToUpper s) := by
  obtain ⟨c, hc, h1, h2⟩ := h
  exact ⟨c.toUpper, List.mem_map_of_mem _ hc, toUpper_nonpunct h1 h2⟩

theorem jsToLower_hasNonPunct {s : String} (h : HasNonPunct s) :
    HasNonPunct (jsToLower s) := by
  obtain ⟨c, hc, h1, h2⟩ := h
  exact ⟨c.toLower, List.mem_map_of_mem _ hc, toLower_nonpunct h1 h2⟩

theorem dropWhile_ne_nil_of_exists {α : Type} {p : α → Bool} {l : List α}
    (h : ∃ x ∈ l, ¬ p x = true) : l.dropWhile p ≠ [] := by
  induction l with
  | nil => obtain ⟨x, hx, _⟩ := h; cases hx
  | cons y ys ih =>
      rw [List.dropWhile_cons]
      obtain ⟨x, hx, hpx⟩ := h
      by_cases hy : p y = true
      · rw [if_pos hy]
        rcases List.mem_cons.mp hx with rfl | hx'
        · exact absurd hy hpx
        · exact ih ⟨x, hx', hpx⟩
      · rw [if_neg hy]; simp

theorem stripTrailingPunctRun_ne_empty {s : String} (h : HasNonPunct s) :
    stripTrailingPunctRun s ≠ "" := by
  obtain ⟨c, hc, h1, h2⟩ := h
  apply string_ne_empty_of_data
  show (s.data.reverse.dropWhile _).reverse ≠ []
  simp only [ne_eq, List.reverse_eq_nil_iff]
  exact dropWhile_ne_nil_of_exists
    ⟨c, List.mem_reverse.mpr hc, by simp [h1, h2]⟩

theorem splitWsAux_length_pos (l : List Char) :
    ∀ acc inSep, 1 ≤ (splitWsAux l acc inSep).length := by
  induction l with
  | nil => intro acc inSep; simp [splitWsAux]
  | cons c cs ih =>
      intro acc inSep
      unfold splitWsAux
      by_cases hc : c.isWhitespace = true
      · rw [if_pos hc]
        by_cases hs : inSep = true
        · rw [if_pos hs]; exact ih acc true
        · rw [if_neg hs]
          simp only [List.length_cons]
          omega
      · rw [if_neg hc]; exact ih (c :: acc) false

theorem splitWsAux_length_two {l : List Char}
    (h : ∃ c ∈ l, c.isWhitespace = true) :
    ∀ acc, 2 ≤ (splitWsAux l acc false).length := by
  induction l with
  | nil => obtain ⟨c, hc, _⟩ := h; cases hc
  | cons c cs ih =>
      intro acc
      unfold splitWsAux
      by_cases hc : c.isWhitespace = true
      · rw [if_pos hc, if_neg (by simp)]
        have := splitWsAux_length_pos cs [] true
        simp only [List.length_cons]
        omega
      · rw [if_neg hc]
        obtain ⟨x, hx, hxw⟩ := h
        rcases List.mem_cons.mp hx with rfl | hx'
        · exact absurd hxw hc
        · exact ih ⟨x, hx', hxw⟩ (c :: acc)

theorem splitWsAux_mem_of_acc {x : Char} :
    ∀ (l acc : List Char) (inSep : Bool), x ∈ acc →
    ∃ wd ∈ splitWsAux l acc inSep, x ∈ wd := by
  intro l
  induction l with
  | nil =>
      intro acc inSep hx
      exact ⟨acc.reverse, by simp [splitWsAux], List.mem_reverse.mpr hx⟩
  | cons c cs ih =>
      intro acc inSep hx
      unfold splitWsAux
      by_cases hc : c.isWhitespace = true
      · rw [if_pos hc]
        by_cases hs : inSep = true
        · rw [if_pos hs]; exact ih acc true hx
        · rw [if_neg hs]
          exact ⟨acc.reverse, List.mem_cons_self _ _,
            List.mem_reverse.mpr hx⟩
      · rw [if_neg hc]
        exact ih (c :: acc) false (List.mem_cons_of_mem _ hx)

theorem splitWsAux_mem_of_char {x : Char} (hxw : ¬ x.isWhitespace = true) :
    ∀ (l acc : List Char) (inSep : Bool), x ∈ l →
    ∃ wd ∈ splitWsAux l acc inSep, x ∈ wd := by
  intro l
  induction l with
  | nil => intro acc inSep hx; cases hx
  | cons c cs ih =>
      intro acc inSep hx
      unfold splitWsAux
      by_cases hc : c.isWhitespace = true
      · rw [if_pos hc]
        have hx' : x ∈ cs := by
          rcases List.mem_cons.mp hx with rfl | hx'
          · exact absurd hc hxw
          · exact hx'
        by_cases hs : inSep = true
        · rw [if_pos hs]; exact ih acc true hx'
        · rw [if_neg hs]
          obtain ⟨wd, hwd, hmem⟩ := ih [] true hx'
          exact ⟨wd, List.mem_cons_of_mem _ hwd, hmem⟩
      · rw [if_neg hc]
        rcases List.mem_cons.mp hx with rfl | hx'
        · exact splitWsAux_mem_of_acc cs (x :: acc) false
            (List.mem_cons_self _ _)
        · exact ih (c :: acc) false hx'

theorem mem_joinSep_data {w : String} {l : List String} {c : Char}
    (hw : w ∈ l) (hc : c ∈ w.data) (sep : String) :
    c ∈ (joinSep sep l).data := by
  obtain ⟨pre, post, heq⟩ := substrOf_of_mem_joinSep hw sep
  rw [← heq]
  exact List.mem_append.mpr (Or.inl (List.mem_append.mpr (Or.inr hc)))

theorem joinSep_space_mem {l : List String} (h : 2 ≤ l.length) :
    ' ' ∈ (joinSep " " l).data := by
  match l with
  | [] => simp at h
  | [x] => simp at h
  | x :: y :: r =>
      show ' ' ∈ (x ++ " " ++ joinSep " " (y :: r)).data
      rw [String.data_append, String.data_append]
      refine List.mem_append.mpr (Or.inl (List.mem_append.mpr (Or.inr ?_)))
      decide

theorem getD_mem {α : Type} {l : List α} {i : Nat} (h : i < l.length)
    (d : α) : l.getD i d ∈ l := by
  have hg : l.getD i d = l[i] := List.getD_eq_getElem l d h
  rw [hg]
  exact List.getElem_mem h

theorem mapWithIndex_mem {α β : Type} {f : Nat → α → β} {x : α} :
    ∀ {l : List α} (n : Nat), x ∈ l →
    ∃ i, f i x ∈ mapWithIndex f n l := by
  intro l
  induction l with
  | nil => intro n h; cases h
  | cons y ys ih =>
      intro n h
      rcases List.mem_cons.mp h with rfl | h'
      · exact ⟨n, List.mem_cons_self _ _⟩
      · obtain ⟨i, hi⟩ := ih (n + 1) h'
        exact ⟨i, List.mem_cons_of_mem _ hi⟩

theorem mapWithIndex_length {α β : Type} (f : Nat → α → β) :
    ∀ (n : Nat) (l : List α), (mapWithIndex f n l).length = l.length := by
  intro n l
  induction l generalizing n with
  | nil => rfl
  | cons y ys ih => simp [mapWithIndex, ih]

/-- Every variant table entry is nonempty and each variant keeps a
non-punctuation character, capitalized or not (checked by evaluation). -/
theorem STREET_TYPES_ok : ∀ p ∈ STREET_TYPES, p.2 ≠ [] ∧
    ∀ v ∈ p.2, HasNonPunct v ∧ HasNonPunct (capitalizeJS v) := by decide

theorem DIRECTIONS_ok : ∀ p ∈ DIRECTIONS, p.2 ≠ [] ∧
    ∀ v ∈ p.2, HasNonPunct v ∧ HasNonPunct (capitalizeJS v) := by decide

theorem dict_pick_ok {dict : List (String × List String)}
    (hdict : ∀ p ∈ dict, p.2 ≠ [] ∧
      ∀ v ∈ p.2, HasNonPunct v ∧ HasNonPunct (capitalizeJS v))
    {key : String} {variants : List String}
    (hget : jsObjGet dict key = some variants) (k : Nat) :
    HasNonPunct (variants.getD (k % variants.length) "") ∧
    HasNonPunct (capitalizeJS (variants.getD (k % variants.length) "")) := by
  obtain ⟨hne, hall⟩ := hdict _ (jsObjGet_mem hget)
  have hlen : 0 < variants.length := List.length_pos.mpr hne
  exact hall _ (getD_mem (Nat.mod_lt _ hlen) "")

theorem jigWordStreet_hasNonPunct {w : String} (seed i : Nat)
    (h : HasNonPunct w) :
    HasNonPunct (AddressJigger.jigWordStreet seed i w) := by
  unfold AddressJigger.jigWordStreet
  cases hget : jsObjGet STREET_TYPES
      (stripTrailingOnce ['.', ','] (jsToLower w)) with
  | none => exact h
  | some variants =>
      have := dict_pick_ok STREET_TYPES_ok hget (seed + i)
      by_cases hu : isFirstUpper w = true
      · simpa [hu] using this.2
      · simpa [hu] using this.1

theorem jigWordDir_hasNonPunct {w1 : String} (seed i : Nat)
    (h : HasNonPunct w1) :
    HasNonPunct (AddressJigger.jigWordDir seed i w1) := by
  unfold AddressJigger.jigWordDir
  cases hget : jsObjGet DIRECTIONS (stripTrailingOnce ['.'] (jsToLower w1))
      with
  | none => exact h
  | some variants =>
      have := dict_pick_ok DIRECTIONS_ok hget (seed + i + 1)
      by_cases hu : isFirstUpper w1 = true
      · simpa [hu] using this.2
      · simpa [hu] using this.1

theorem jigWord_hasNonPunct {w : String} (seed i : Nat)
    (h : HasNonPunct w) : HasNonPunct (AddressJigger.jigWord seed i w) :=
  jigWordDir_hasNonPunct seed i (jigWordStreet_hasNonPunct seed i h)

/-- The split/map/join stage of `_jigStreetAddress` keeps a
non-punctuation character. -/
theorem joinWords_hasNonPunct (seed : Nat) {r0 : String}
    (h : HasNonPunct r0) :
    HasNonPunct (joinSep " "
      (mapWithIndex (AddressJigger.jigWord seed) 0 (jsSplitWs r0))) := by
  obtain ⟨c, hc, hc1, hc2⟩ := h
  by_cases hw : c.isWhitespace = true
  · refine ⟨' ', ?_, by decide, by decide⟩
    apply joinSep_space_mem
    rw [mapWithIndex_length]
    unfold jsSplitWs
    rw [List.length_map]
    exact splitWsAux_length_two ⟨c, hc, hw⟩ []
  · obtain ⟨wd, hwd, hcwd⟩ := splitWsAux_mem_of_char hw r0.data [] false hc
    have hword : String.mk wd ∈ jsSplitWs r0 :=
      List.mem_map_of_mem String.mk hwd
    obtain ⟨i, hi⟩ := mapWithIndex_mem 0 hword
    obtain ⟨c', hc', np1, np2⟩ :=
      jigWord_hasNonPunct seed i ⟨c, hcwd, hc1, hc2⟩
    exact ⟨c', mem_joinSep_data hi hc' " ", np1, np2⟩

theorem jigStreetNum_hasNonPunct (seed : Nat) {addr : String}
    (h : HasNonPunct addr) :
    HasNonPunct (AddressJigger.jigStreetNum seed addr) := by
  unfold AddressJigger.jigStreetNum
  cases hm : matchNumRest addr with
  | none => exact h
  | some nr =>
      obtain ⟨num, rest⟩ := nr
      refine ⟨' ', ?_, by decide, by decide⟩
      show ' ' ∈ (_ ++ " " ++ rest).data
      rw [String.data_append, String.data_append]
      exact List.mem_append.mpr (Or.inl (List.mem_append.mpr (Or.inr
        (by decide))))

theorem jigStreetCase_hasNonPunct (seed : Nat) {r1 : String}
    (h : HasNonPunct r1) :
    HasNonPunct (AddressJigger.jigStreetCase seed r1) := by
  unfold AddressJigger.jigStreetCase
  by_cases h1 : seed % 5 = 1
  · rw [if_pos h1]; exact jsToUpper_hasNonPunct h
  · rw [if_neg h1]
    by_cases h2 : seed % 5 = 2
    · rw [if_pos h2]; exact jsToLower_hasNonPunct h
    · rw [if_neg h2]; exact h

theorem jigStreetFinish_ne_empty (seed : Nat) {r2 : String}
    (h : HasNonPunct r2) :
    AddressJigger.jigStreetFinish seed r2 ≠ "" := by
  unfold AddressJigger.jigStreetFinish
  by_cases h1 : seed % 3 = 1 ∧ ¬ jsEndsWith r2 "." = true
  · rw [if_pos h1]
    exact append_right_ne_empty r2 (by decide)
  · rw [if_neg h1]
    by_cases h2 : seed % 3 = 2
    · rw [if_pos h2]; exact stripTrailingPunctRun_ne_empty h
    · rw [if_neg h2]
      obtain ⟨c, hc, _⟩ := h
      exact string_ne_empty_of_data (by intro h0; rw [h0] at hc; cases hc)

/-- The street-address jig never empties an address that contains at least
one character other than a period or comma. -/
theorem jigStreetAddress_ne_empty {addr : String} (seed : Nat)
    (h : HasNonPunct addr) :
    AddressJigger.jigStreetAddress addr seed ≠ "" := by
  have haddr : addr ≠ "" := by
    obtain ⟨c, hc, _⟩ := h
    exact string_ne_empty_of_data (by intro h0; rw [h0] at hc; cases hc)
  unfold AddressJigger.jigStreetAddress
  rw [if_neg haddr]
  exact jigStreetFinish_ne_empty seed (jigStreetCase_hasNonPunct seed
    (joinWords_hasNonPunct seed (jigStreetNum_hasNonPunct seed h)))

theorem capFirst0_ne_empty {s : String} (h : s ≠ "") : capFirst0 s ≠ "" := by
  unfold capFirst0
  cases hn : s.data with
  | nil => exact absurd hn (data_ne_empty_of_ne h)
  | cons c cs => exact string_ne_empty_of_data (by simp)

theorem jsToUpper_ne_empty {s : String} (h : s ≠ "") : jsToUpper s ≠ "" := by
  apply string_ne_empty_of_data
  show s.data.map Char.toUpper ≠ []
  simp [data_ne_empty_of_ne h]

theorem jsToLower_ne_empty {s : String} (h : s ≠ "") : jsToLower s ≠ "" := by
  apply string_ne_empty_of_data
  show s.data.map Char.toLower ≠ []
  simp [data_ne_empty_of_ne h]

theorem jigFirstName_ne_empty {name : String} (seed : Nat) (h : name ≠ "") :
    AddressJigger.jigFirstName name seed ≠ "" := by
  unfold AddressJigger.jigFirstName
  rw [if_neg h,
    show (AddressJigger.firstNameVariants name).length = 6 from rfl]
  have h6 : seed % 6 = 0 ∨ seed % 6 = 1 ∨ seed % 6 = 2 ∨ seed % 6 = 3 ∨
      seed % 6 = 4 ∨ seed % 6 = 5 := by omega
  rcases h6 with h' | h' | h' | h' | h' | h' <;> rw [h']
  · exact h
  · show capFirst0 name ++ "." ≠ ""
    exact append_right_ne_empty _ (by decide)
  · exact capFirst0_ne_empty h
  · exact jsToUpper_ne_empty h
  · exact jsToLower_ne_empty h
  · show capFirst0 name ++ jsSliceFrom1Lower name ≠ ""
    exact append_left_ne_empty (capFirst0_ne_empty h) _

theorem jigLastName_ne_empty {name : String} (seed : Nat) (h : name ≠ "") :
    AddressJigger.jigLastName name seed ≠ "" := by
  unfold AddressJigger.jigLastName
  rw [if_neg h,
    show (AddressJigger.lastNameVariants name).length = 4 from rfl]
  have h4 : seed % 4 = 0 ∨ seed % 4 = 1 ∨ seed % 4 = 2 ∨ seed % 4 = 3 := by
    omega
  rcases h4 with h' | h' | h' | h' <;> rw [h']
  · exact h
  · exact jsToUpper_ne_empty h
  · exact jsToLower_ne_empty h
  · show capFirst0 name ++ jsSliceFrom1Lower name ≠ ""
    exact append_left_ne_empty (capFirst0_ne_empty h) _

theorem jigCity_ne_empty {city : String} (seed : Nat) (h : city ≠ "") :
    AddressJigger.jigCity city seed ≠ "" := by
  unfold AddressJigger.jigCity
  rw [if_neg h, show (AddressJigger.cityVariants city).length = 4 from rfl]
  have h4 : seed % 4 = 0 ∨ seed % 4 = 1 ∨ seed % 4 = 2 ∨ seed % 4 = 3 := by
    omega
  rcases h4 with h' | h' | h' | h' <;> rw [h']
  · exact h
  · exact jsToUpper_ne_empty h
  · exact jsToLower_ne_empty h
  · show capFirst0 city ++ jsSliceFrom1Lower city ≠ ""
    exact append_left_ne_empty (capFirst0_ne_empty h) _

theorem jigPostcode_ne_empty {zip : String} (seed : Nat)
    (h : ∃ c ∈ zip.data, ¬ c.isWhitespace = true) :
    AddressJigger.jigPostcode zip seed ≠ "" := by
  obtain ⟨c, hc, hcw⟩ := h
  have hz : zip ≠ "" :=
    string_ne_empty_of_data (by intro h0; rw [h0] at hc; cases hc)
  have hclean : AddressJigger.postcodeClean zip ≠ "" := by
    apply string_ne_empty_of_data
    show (zip.data.filter _).map Char.toUpper ≠ []
    simp only [ne_eq, List.map_eq_nil_iff, List.filter_eq_nil_iff]
    intro hall
    have h2 := hall c hc
    simp at h2
    exact hcw h2
  unfold AddressJigger.jigPostcode
  rw [if_neg hz,
    show (AddressJigger.postcodeVariants zip).length = 5 from rfl]
  have h5 : seed % 5 = 0 ∨ seed % 5 = 1 ∨ seed % 5 = 2 ∨ seed % 5 = 3 ∨
      seed % 5 = 4 := by omega
  rcases h5 with h' | h' | h' | h' | h' <;> rw [h']
  · exact hz
  · exact hclean
  · show (if (AddressJigger.postcodeClean zip).data.length > 3 then _
      else AddressJigger.postcodeClean zip) ≠ ""
    by_cases h3 : (AddressJigger.postcodeClean zip).data.length > 3
    · rw [if_pos h3]
      exact append_left_ne_empty
        (append_right_ne_empty _ (by decide)) _
    · rw [if_neg h3]; exact hclean
  · exact jsToLower_ne_empty hz
  · exact jsToLower_ne_empty hclean

theorem jigPhone_ne_empty {phone : String} (seed : Nat) (h : phone ≠ "") :
    AddressJigger.jigPhone phone seed ≠ "" := by
  unfold AddressJigger.jigPhone
  rw [if_neg h]
  by_cases hd : (AddressJigger.phoneDigits phone).length < 10
  · rw [if_pos hd]; exact h
  · rw [if_neg hd,
      show (AddressJigger.phoneVariants phone).length = 6 from rfl]
    have hne : AddressJigger.phoneDigits phone ≠ [] := by
      intro h0; rw [h0] at hd; exact hd (by decide)
    have h6 : seed % 6 = 0 ∨ seed % 6 = 1 ∨ seed % 6 = 2 ∨ seed % 6 = 3 ∨
        seed % 6 = 4 ∨ seed % 6 = 5 := by omega
    rcases h6 with h' | h' | h' | h' | h' | h' <;> rw [h']
    · exact h
    · exact string_ne_empty_of_data hne
    · show (if (AddressJigger.phoneDigits phone).take 2 = ['4', '4'] then _
        else _) ≠ ""
      by_cases h44 : (AddressJigger.phoneDigits phone).take 2 = ['4', '4']
      · rw [if_pos h44]
        exact string_ne_empty_of_data (by simp)
      · rw [if_neg h44]
        exact string_ne_empty_of_data hne
    · exact append_left_ne_empty (append_left_ne_empty
        (append_left_ne_empty (append_left_ne_empty
          (append_left_ne_empty (by decide) _) _) _) _) _
    · exact append_left_ne_empty (append_left_ne_empty
        (append_left_ne_empty (by decide) _) _) _
    · exact append_left_ne_empty (append_left_ne_empty
        (append_left_ne_empty (by decide) _) _) _

/-- An address whose street field is just a period. -/
def punctOnlyAddr : Address :=
  { firstName := "John", lastName := "Smith", address := ".",
    address2 := "", city := "London", county := "", state := "",
    zip := "SW1A 1AA", country := "GB", phone := "07911123456",
    email := "john@example.com" }

/-- **C7, counterexample.** `AddressJigger.jig` does not keep every
non-empty required field non-empty: at task index 2 the case-variation
step lowercases the street address and the trailing-punctuation step
(`seed % 3 === 2`) strips the trailing period/comma run, so an address
consisting only of `"."` — non-empty on input — comes back as the empty
string. -/
theorem addressJigger_empty_address_counterexample :
    punctOnlyAddr.address ≠ "" ∧
    (AddressJigger.jig punctOnlyAddr 2).address = "" := by
  constructor
  · decide
  · decide

/-- **C7 (amended).** Address jigging: index 0 returns the input unchanged
(field for field) for both implementations; jigging is deterministic (both
embedded code paths are pure functions of `(input, index)` — the source
uses no randomness there); and for indices 1..49 each jig preserves
non-emptiness of the required fields, with two provisos forced by the
counterexample: `AddressJigger.jig` preserves the street address only when
it contains at least one character other than `.`/`,`, and the postcode
only when it contains a non-whitespace character. `FastCheckout.jigAddress`
leaves all fields but `address2`/`firstName`/`lastName` untouched and its
outputs for those are non-empty whenever the inputs are. -/
theorem addressJig_amended :
    (∀ a : Address, AddressJigger.jig a 0 = a) ∧
    (∀ d : Address, FastCheckout.jigAddress d 0 = d) ∧
    (∀ (d : Address) (i : Nat), 1 ≤ i → i ≤ 49 →
      (FastCheckout.jigAddress d i).address = d.address ∧
      (FastCheckout.jigAddress d i).city = d.city ∧
      (FastCheckout.jigAddress d i).zip = d.zip ∧
      (FastCheckout.jigAddress d i).country = d.country ∧
      (FastCheckout.jigAddress d i).phone = d.phone ∧
      (FastCheckout.jigAddress d i).email = d.email ∧
      (FastCheckout.jigAddress d i).address2 ≠ "" ∧
      (d.firstName ≠ "" → (FastCheckout.jigAddress d i).firstName ≠ "") ∧
      (d.lastName ≠ "" → (FastCheckout.jigAddress d i).lastName ≠ "")) ∧
    (∀ (a : Address) (i : Nat), 1 ≤ i →
      ((AddressJigger.jig a i).county = a.county ∧
       (AddressJigger.jig a i).state = a.state ∧
       (AddressJigger.jig a i).country = a.country ∧
       (AddressJigger.jig a i).email = a.email) ∧
      (a.firstName ≠ "" → (AddressJigger.jig a i).firstName ≠ "") ∧
      (a.lastName ≠ "" → (AddressJigger.jig a i).lastName ≠ "") ∧
      (a.city ≠ "" → (AddressJigger.jig a i).city ≠ "") ∧
      (a.phone ≠ "" → (AddressJigger.jig a i).phone ≠ "") ∧
      ((∃ c ∈ a.zip.data, ¬ c.isWhitespace = true) →
        (AddressJigger.jig a i).zip ≠ "") ∧
      (HasNonPunct a.address → (AddressJigger.jig a i).address ≠ "")) := by
  refine ⟨fun a => rfl, fun d => rfl, ?_, ?_⟩
  · intro d i h1 h49
    have hne : ¬ i = 0 := by omega
    have hsuf : FastCheckout.suffixes.getD
        (i % FastCheckout.suffixes.length) "" ≠ "" := by
      rw [show FastCheckout.suffixes.length = 50 from rfl,
        Nat.mod_eq_of_lt (by omega)]
      have hb : ∀ j, j < 50 → 1 ≤ j →
          FastCheckout.suffixes.getD j "" ≠ "" := by decide
      exact hb i (by omega) h1
    unfold FastCheckout.jigAddress
    rw [if_neg hne]
    unfold FastCheckout.jigAddrStep3 FastCheckout.jigAddrStep2
      FastCheckout.jigAddrStep1
    refine ⟨?_, ?_, ?_, ?_, ?_, ?_, ?_, ?_, ?_⟩
    · split_ifs <;> rfl
    · split_ifs <;> rfl
    · split_ifs <;> rfl
    · split_ifs <;> rfl
    · split_ifs <;> rfl
    · split_ifs <;> rfl
    · split_ifs <;> exact hsuf
    · intro hf
      split_ifs <;>
        first
        | exact append_right_ne_empty _ (by decide)
        | exact hf
    · intro hl
      split_ifs <;>
        first
        | exact append_right_ne_empty _ (by decide)
        | exact hl
  · intro a i h1
    have hne : ¬ i = 0 := by omega
    unfold AddressJigger.jig
    rw [if_neg hne]
    refine ⟨⟨rfl, rfl, rfl, rfl⟩, ?_, ?_, ?_, ?_, ?_, ?_⟩
    · intro h; exact jigFirstName_ne_empty i h
    · intro h; exact jigLastName_ne_empty i h
    · intro h; exact jigCity_ne_empty i h
    · intro h; exact jigPhone_ne_empty i h
    · intro h; exact jigPostcode_ne_empty i h
    · intro h; exact jigStreetAddress_ne_empty i h

/-- A fully-populated sample address for the jigging witness. -/
def sampleAddr : Address :=
  { firstName := "John", lastName := "Smith", address := "12 Main Street",
    address2 := "Flat 4B", city := "London", county := "Greater London",
    state := "", zip := "SW1A 1AA", country := "GB",
    phone := "+44 7911 123456", email := "john@example.com" }

/-- Witness for `addressJig_amended` at a concrete address and index 7. -/
theorem addressJig_amended_witness :
    AddressJigger.jig sampleAddr 0 = sampleAddr ∧
    (FastCheckout.jigAddress sampleAddr 7).address2 ≠ "" ∧
    (AddressJigger.jig sampleAddr 7).firstName ≠ "" ∧
    (AddressJigger.jig sampleAddr 7).address ≠ "" :=
  ⟨addressJig_amended.1 sampleAddr,
   (addressJig_amended.2.2.1 sampleAddr 7 (by decide)
     (by decide)).2.2.2.2.2.2.1,
   (addressJig_amended.2.2.2 sampleAddr 7 (by decide)).2.1 (by decide),
   (addressJig_amended.2.2.2 sampleAddr 7 (by decide)).2.2.2.2.2.2
     (by decide)⟩

-- ════════════════════════════════════════════════════════════════
-- Fleet orchestration (src/fleet-runner.js, FleetRunner.launch and
-- FleetRunner._runSingleBot)
-- ════════════════════════════════════════════════════════════════

/-- A fleet user (the fields `launch` reads for tallying). -/
structure User where
  id : String
  name : String
deriving DecidableEq

/-- The structured result of one checkout attempt (`FastCheckout.run`'s
return value, or the record built by `_runSingleBot`'s catch). Absent JS
fields are `none`. -/
structure RunResult where
  success : Bool
  step : Option String
  error : Option String
  elapsed : Option String
  dryRun : Option Bool
  mode : Option String
deriving DecidableEq

/-- One entry of `launch`'s `summaries` array. -/
structure BotSummary where
  botId : String
  userId : String
  userName : String
  success : Bool
  elapsed : String
  error : String
  step : String
deriving DecidableEq

/-- `launch`'s return value (per-run wall-clock elapsed time is not
modeled). -/
structure FleetResult where
  success : Bool
  successCount : Nat
  failCount : Nat
  total : Nat
  dryRun : Bool
  summaries : List BotSummary
deriving DecidableEq

/-- `FleetRunner._runSingleBot`'s isolation boundary: the bot's body
(config build, jig, `instance.run`, state bookkeeping) either produces a
result or throws; the catch converts a thrown error into the structured
`{success:false, error, step:"fatal"}` record and never rethrows. -/
def runSingleBot (outcome : Except String RunResult) : RunResult :=
  match outcome with
  | .ok r => r
  | .error msg =>
      { success := false, step := some "fatal", error := some msg,
        elapsed := none, dryRun := none, mode := none }

/-- One `summaries.push({...})` entry for bot `i` (botId `bot-(i+1)`). -/
def mkSummary (i : Nat) (u : User) (r : RunResult) : BotSummary :=
  { botId := "bot-" ++ toString (i + 1)
    userId := u.id
    userName := u.name
    success := r.success
    elapsed := jsOrStr r.elapsed "?"
    error := jsOrStr r.error ""
    step := jsOrStr r.step "" }

/-- The result-tally block at the end of `FleetRunner.launch`: one summary
per bot, success/fail counters over the same per-bot results. -/
def launchTally (users : List User) (dryRun : Bool)
    (outcomes : Nat → Except String RunResult) : FleetResult :=
  let summaries := mapWithIndex
    (fun i u => mkSummary i u (runSingleBot (outcomes i))) 0 users
  let successCount := summaries.countP (fun s => s.success)
  let failCount := summaries.countP (fun s => ! s.success)
  { success := successCount > 0
    successCount := successCount
    failCount := failCount
    total := users.length
    dryRun := dryRun
    summaries := summaries }

/-- `FleetRunner.launch(opts)`: validation, one isolated bot per user, and
the final tally. `outcomes i` is the (network-dependent) outcome of task
`i`'s body, `.error` meaning an exception reaching the task boundary. -/
def launch (users : List User) (storeUrl productUrl : String)
    (dryRun : Bool) (outcomes : Nat → Except String RunResult) :
    Except String FleetResult :=
  if users.length = 0 then .error "No users selected."
  else if users.length > 50 then .error "Maximum 50 concurrent bots."
  else if storeUrl = "" ∧ productUrl = "" then
    .error "Store URL or Product URL required."
  else .ok (launchTally users dryRun outcomes)

theorem mapWithIndex_getD {α β : Type} {f : Nat → α → β} :
    ∀ (l : List α) (n i : Nat), i < l.length → ∀ (d : β) (du : α),
    (mapWithIndex f n l).getD i d = f (n + i) (l.getD i du) := by
  intro l
  induction l with
  | nil => intro n i h; simp at h
  | cons x xs ih =>
      intro n i h d du
      cases i with
      | zero => simp [mapWithIndex, List.getD]
      | succ j =>
          show (mapWithIndex f (n + 1) xs).getD j d = _
          rw [ih (n + 1) j (by simpa using h) d du]
          congr 1
          omega

theorem mapWithIndex_countP {α β : Type} (f : Nat → α → β)
    (p : β → Bool) :
    ∀ (l : List α) (n : Nat),
    (mapWithIndex f n l).countP p =
      ((List.range' n l.length).zip l).countP (fun iu => p (f iu.1 iu.2)) := by
  intro l
  induction l with
  | nil => exact fun n => rfl
  | cons c cs ihc =>
      intro n
      show (f n c :: mapWithIndex f (n + 1) cs).countP p = _
      rw [List.countP_cons, ihc (n + 1)]
      show _ = ((n :: List.range' (n + 1) cs.length).zip (c :: cs)).countP _
      rw [List.zip_cons_cons, List.countP_cons]

theorem zip_countP_fst {α β : Type} (q : α → Bool) :
    ∀ (l₁ : List α) (l₂ : List β), l₁.length = l₂.length →
    (l₁.zip l₂).countP (fun p => q p.1) = l₁.countP q := by
  intro l₁
  induction l₁ with
  | nil => intro l₂ _; rfl
  | cons x xs ih =>
      intro l₂ hlen
      cases l₂ with
      | nil => simp at hlen
      | cons y ys =>
          rw [List.zip_cons_cons, List.countP_cons, List.countP_cons,
            ih ys (by simpa using hlen)]

theorem countP_not_eq_sub {α : Type} (p : α → Bool) (l : List α) :
    l.countP (fun a => ! p a) = l.length - l.countP p := by
  induction l with
  | nil => rfl
  | cons x xs ih =>
      rw [List.countP_cons, List.countP_cons, ih]
      have hle : xs.countP p ≤ xs.length := List.countP_le_length p
      by_cases hx : p x = true
      · simp [hx]
      · simp [hx]
        omega

/-- **C8.** Fleet result aggregation: a launch with 1..50 users (and a
target URL) runs every task and returns `successCount` equal to the number
of tasks whose result has `success` true, `failCount` equal to N minus
`successCount`, and exactly N summaries, the i-th carrying task i's own
user id/name and task i's own outcome; a launch with zero users or more
than 50 users throws before consulting any task outcome (the error is the
same for every outcome oracle). -/
theorem fleet_result_aggregation :
    (∀ (users : List User) (storeUrl productUrl : String) (dryRun : Bool)
      (oc : Nat → Except String RunResult),
      1 ≤ users.length → users.length ≤ 50 → storeUrl ≠ "" →
      ∃ fr, launch users storeUrl productUrl dryRun oc = .ok fr ∧
        fr.summaries.length = users.length ∧
        fr.total = users.length ∧
        fr.successCount = (List.range users.length).countP
          (fun i => (runSingleBot (oc i)).success) ∧
        fr.failCount = users.length - fr.successCount ∧
        (∀ i, i < users.length → ∀ (d : BotSummary) (du : User),
          fr.summaries.getD i d =
            mkSummary i (users.getD i du) (runSingleBot (oc i)))) ∧
    (∀ (storeUrl productUrl : String) (dryRun : Bool)
      (oc : Nat → Except String RunResult),
      launch [] storeUrl productUrl dryRun oc =
        .error "No users selected.") ∧
    (∀ (users : List User) (storeUrl productUrl : String) (dryRun : Bool)
      (oc : Nat → Except String RunResult), users.length > 50 →
      launch users storeUrl productUrl dryRun oc =
        .error "Maximum 50 concurrent bots.") := by
  refine ⟨?_, ?_, ?_⟩
  · intro users storeUrl productUrl dryRun oc h1 h50 hstore
    have hz : ¬ users.length = 0 := by omega
    have hb : ¬ users.length > 50 := by omega
    have ht : ¬ (storeUrl = "" ∧ productUrl = "") := fun h => hstore h.1
    have hlaunch : launch users storeUrl productUrl dryRun oc =
        .ok (launchTally users dryRun oc) := by
      unfold launch
      rw [if_neg hz, if_neg hb, if_neg ht]
    refine ⟨launchTally users dryRun oc, hlaunch, ?_, rfl, ?_, ?_, ?_⟩
    · show (mapWithIndex _ 0 users).length = users.length
      exact mapWithIndex_length _ 0 users
    · show (mapWithIndex _ 0 users).countP _ = _
      rw [mapWithIndex_countP]
      have hzl : (List.range' 0 users.length).length = users.length := by
        simp
      rw [show (fun (iu : Nat × User) =>
          (mkSummary iu.1 iu.2 (runSingleBot (oc iu.1))).success) =
          (fun iu => (runSingleBot (oc iu.1)).success) from rfl]
      rw [zip_countP_fst (fun i => (runSingleBot (oc i)).success) _ users
        (by rw [hzl])]
      rw [List.range_eq_range']
    · show (mapWithIndex (fun i u => mkSummary i u (runSingleBot (oc i)))
          0 users).countP (fun s => ! s.success) =
        users.length - (mapWithIndex
          (fun i u => mkSummary i u (runSingleBot (oc i)))
          0 users).countP (fun s => s.success)
      rw [countP_not_eq_sub (fun s : BotSummary => s.success)]
      rw [mapWithIndex_length]
    · intro i hi d du
      show (mapWithIndex _ 0 users).getD i d = _
      rw [mapWithIndex_getD users 0 i hi d du]
      simp
  · intro storeUrl productUrl dryRun oc; rfl
  · intro users storeUrl productUrl dryRun oc hgt
    have hz : ¬ users.length = 0 := by omega
    unfold launch
    rw [if_neg hz, if_pos hgt]

/-- The five-user fleet of end-to-end scenario D. -/
def fleetUsers5 : List User :=
  [⟨"u1", "Alice"⟩, ⟨"u2", "Bob"⟩, ⟨"u3", "Cara"⟩, ⟨"u4", "Dan"⟩,
   ⟨"u5", "Eve"⟩]

/-- Outcomes where only task index 2 succeeds. -/
def oc5 : Nat → Except String RunResult := fun i =>
  .ok { success := i == 2
        step := some (if i == 2 then "complete" else "payment")
        error := none
        elapsed := some "3.2"
        dryRun := some true
        mode := some "fast" }

/-- Witness for `fleet_result_aggregation`: a fleet of 5 where only task
index 2 succeeds yields successCount 1, failCount 4 and 5 summaries. -/
theorem fleet_result_aggregation_witness :
    ∃ fr, launch fleetUsers5 "https://shop.example.com" "" true oc5 =
        .ok fr ∧
      fr.successCount = 1 ∧ fr.failCount = 4 ∧
      fr.summaries.length = 5 := by
  obtain ⟨fr, hfr, hlen, _htot, hsucc, hfail, _⟩ :=
    fleet_result_aggregation.1 fleetUsers5 "https://shop.example.com" ""
      true oc5 (by decide) (by decide) (by decide)
  refine ⟨fr, hfr, ?_, ?_, hlen⟩
  · rw [hsucc]; decide
  · rw [hfail, hsucc]; decide

/-- **C3.** Fleet task isolation: an exception reaching a task's boundary
is converted by `_runSingleBot`'s catch into the structured result
`{success:false, error:<message>, step:"fatal"}` recorded for that task;
the launch still completes normally with every task tallied, and each
sibling task's recorded summary depends only on that sibling's own
outcome. -/
theorem fleet_task_isolation :
    (∀ msg : String, runSingleBot (.error msg) =
      { success := false, step := some "fatal", error := some msg,
        elapsed := none, dryRun := none, mode := none }) ∧
    (∀ (users : List User) (storeUrl productUrl : String) (dryRun : Bool)
      (oc : Nat → Except String RunResult) (i : Nat) (msg : String),
      1 ≤ users.length → users.length ≤ 50 → storeUrl ≠ "" →
      i < users.length → oc i = .error msg →
      ∃ fr, launch users storeUrl productUrl dryRun oc = .ok fr ∧
        fr.summaries.length = users.length ∧
        ∀ (d : BotSummary) (du : User),
          (fr.summaries.getD i d).userId = (users.getD i du).id ∧
          (fr.summaries.getD i d).userName = (users.getD i du).name ∧
          (fr.summaries.getD i d).success = false ∧
          (fr.summaries.getD i d).step = "fatal" ∧
          (fr.summaries.getD i d).error = msg) ∧
    (∀ (users : List User) (storeUrl productUrl : String) (dryRun : Bool)
      (oc oc' : Nat → Except String RunResult) (j : Nat),
      j < users.length → oc j = oc' j →
      ∀ fr fr', launch users storeUrl productUrl dryRun oc = .ok fr →
        launch users storeUrl productUrl dryRun oc' = .ok fr' →
        ∀ (d : BotSummary) (du : User),
          fr.summaries.getD j d = fr'.summaries.getD j d) := by
  refine ⟨fun msg => rfl, ?_, ?_⟩
  · intro users storeUrl productUrl dryRun oc i msg h1 h50 hstore hi hoc
    obtain ⟨fr, hfr, hlen, _, _, _, hent⟩ :=
      fleet_result_aggregation.1 users storeUrl productUrl dryRun oc
        h1 h50 hstore
    refine ⟨fr, hfr, hlen, ?_⟩
    intro d du
    rw [hent i hi d du, hoc]
    refine ⟨rfl, rfl, rfl, rfl, ?_⟩
    show (if msg = "" then "" else msg) = msg
    by_cases hm : msg = ""
    · rw [if_pos hm, hm]
    · rw [if_neg hm]
  · intro users storeUrl productUrl dryRun oc oc' j hj heq fr fr' hfr hfr'
      d du
    have hz : ¬ users.length = 0 := by omega
    by_cases hb : users.length > 50
    · unfold launch at hfr
      rw [if_neg hz, if_pos hb] at hfr
      cases hfr
    by_cases ht : storeUrl = "" ∧ productUrl = ""
    · unfold launch at hfr
      rw [if_neg hz, if_neg hb, if_pos ht] at hfr
      cases hfr
    unfold launch at hfr hfr'
    rw [if_neg hz, if_neg hb, if_neg ht] at hfr hfr'
    cases hfr; cases hfr'
    show (mapWithIndex _ 0 users).getD j d =
      (mapWithIndex _ 0 users).getD j d
    rw [mapWithIndex_getD users 0 j hj d du,
      mapWithIndex_getD users 0 j hj d du]
    simp only [Nat.zero_add, heq]

/-- A three-user fleet where task 1's body throws. -/
def usersCrash : List User := [⟨"u1", "Alice"⟩, ⟨"u2", "Bob"⟩, ⟨"u3", "Cara"⟩]

/-- Outcomes where task 1 throws an exception and its siblings finish. -/
def ocCrash : Nat → Except String RunResult := fun i =>
  if i = 1 then .error "boom"
  else .ok { success := true, step := some "complete", error := none,
             elapsed := some "2.0", dryRun := some true,
             mode := some "fast" }

/-- Witness for `fleet_task_isolation`: with task 1 throwing "boom", the
launch completes with 3 summaries and task 1 recorded as a structured
fatal failure. -/
theorem fleet_task_isolation_witness :
    ∃ fr, launch usersCrash "https://shop.example.com" "" true ocCrash =
        .ok fr ∧
      fr.summaries.length = 3 ∧
      ∀ (d : BotSummary) (du : User),
        (fr.summaries.getD 1 d).success = false ∧
        (fr.summaries.getD 1 d).step = "fatal" ∧
        (fr.summaries.getD 1 d).error = "boom" := by
  obtain ⟨fr, hfr, hlen, hrec⟩ :=
    fleet_task_isolation.2.1 usersCrash "https://shop.example.com" "" true
      ocCrash 1 "boom" (by decide) (by decide) (by decide) (by decide) rfl
  exact ⟨fr, hfr, hlen, fun d du => ⟨(hrec d du).2.2.1, (hrec d du).2.2.2.1,
    (hrec d du).2.2.2.2⟩⟩

-- ════════════════════════════════════════════════════════════════
-- Transport selection and sticky HTTP/2 fallback
-- (src/fast-checkout.js FastCheckout.request; src/http-engine.js
-- HttpEngine.request)
-- ════════════════════════════════════════════════════════════════

/-- Observable transport uses of one attempt: an HTTP/2 attempt by the
engine, or a plain HTTP/1.1 request (engine-internal undici fallback or
node-fetch). -/
inductive TransportEvent where
  | h2Attempt : TransportEvent
  | h1Request : TransportEvent
deriving DecidableEq

/-- The network's behavior for one attempt: outcome of the engine's H2
path, of the engine's internal undici fallback, and of the node-fetch
path (whichever the code consults). -/
structure AttemptEnv where
  h2Result : Except String Unit
  undiciResult : Except String Unit
  fetchResult : Except String Unit

/-- `HttpEngine.request`: try HTTP/2, on failure fall back to undici
(HTTP/1.1) for this request only; if that also fails the engine throws. -/
def engineRequest (env : AttemptEnv) :
    Except String Unit × List TransportEvent :=
  match env.h2Result with
  | .ok _ => (.ok (), [.h2Attempt])
  | .error _ =>
      match env.undiciResult with
      | .ok _ => (.ok (), [.h2Attempt, .h1Request])
      | .error e =>
          (.error ("HTTP request failed: " ++ e), [.h2Attempt, .h1Request])

/-- The node-fetch path of `FastCheckout.request`. -/
def fetchRequest (env : AttemptEnv) :
    Except String Unit × List TransportEvent :=
  match env.fetchResult with
  | .ok _ => (.ok (), [.h1Request])
  | .error e => (.error e, [.h1Request])

/-- The retry loop of `FastCheckout.request`. `fuel` is `retries + 1 -
attempt` (the loop always terminates within that bound); on the first
failure with `useH2` set, H2 is disabled for the session and the loop
continues (`continue` advances `attempt`). Returns (outcome, final
`useH2`, transport events in order). -/
def requestLoop (proxySet : Bool) (envs : Nat → AttemptEnv)
    (retries : Nat) :
    Nat → Nat → Bool → Except String Unit × Bool × List TransportEvent
  | 0, _, useH2 => (.error "out of attempts", useH2, [])
  | fuel + 1, attempt, useH2 =>
      match (if useH2 ∧ ¬ proxySet then engineRequest (envs attempt)
             else fetchRequest (envs attempt)) with
      | (.ok _, evs) => (.ok (), useH2, evs)
      | (.error e, evs) =>
          if useH2 ∧ attempt = 0 then
            match requestLoop proxySet envs retries fuel (attempt + 1)
                false with
            | (r', u', evs') => (r', u', evs ++ evs')
          else if attempt = retries then (.error e, useH2, evs)
          else
            match requestLoop proxySet envs retries fuel (attempt + 1)
                useH2 with
            | (r', u', evs') => (r', u', evs ++ evs')

/-- `FastCheckout.request(url, options, retries = 2)` at transport
granularity. -/
def request (proxySet : Bool) (envs : Nat → AttemptEnv) (retries : Nat)
    (useH2 : Bool) : Except String Unit × Bool × List TransportEvent :=
  requestLoop proxySet envs retries (retries + 1) 0 useH2

/-- A sequence of `request` calls in one session, threading the session's
`useH2` flag. Returns the final flag and, per request, its events and the
flag value after it. -/
def runRequests (proxySet : Bool) (retries : Nat) :
    Bool → List (Nat → AttemptEnv) →
    Bool × List (List TransportEvent × Bool)
  | s, [] => (s, [])
  | s, e :: es =>
      match request proxySet e retries s with
      | (_, s', evs) =>
          match runRequests proxySet retries s' es with
          | (sf, rest) => (sf, (evs, s') :: rest)

theorem fetchRequest_events (env : AttemptEnv) :
    (fetchRequest env).2 = [.h1Request] := by
  unfold fetchRequest
  cases env.fetchResult <;> rfl

/-- Once `useH2` is false, the whole retry loop stays on the fallback
transport and never re-enables H2. -/
theorem requestLoop_false_sticky (proxySet : Bool)
    (envs : Nat → AttemptEnv) (retries : Nat) :
    ∀ (fuel attempt : Nat),
    (requestLoop proxySet envs retries fuel attempt false).2.1 = false ∧
    TransportEvent.h2Attempt ∉
      (requestLoop proxySet envs retries fuel attempt false).2.2 := by
  intro fuel
  induction fuel with
  | zero => intro attempt; exact ⟨rfl, by simp [requestLoop]⟩
  | succ n ih =>
      intro attempt
      unfold requestLoop
      cases hf : fetchRequest (envs attempt) with
      | mk res evs =>
          have hevs : evs = [.h1Request] := by
            have := fetchRequest_events (envs attempt)
            rw [hf] at this
            exact this
          cases res with
          | ok _ => exact ⟨rfl, by simp [hevs]⟩
          | error e =>
              show (if attempt = retries then
                  ((Except.error e : Except String Unit), (false : Bool),
                    evs)
                else match requestLoop proxySet envs retries n
                    (attempt + 1) false with
                  | (r', u', evs') => (r', u', evs ++ evs')).2.1 = false ∧
                TransportEvent.h2Attempt ∉
                (if attempt = retries then
                  ((Except.error e : Except String Unit), (false : Bool),
                    evs)
                else match requestLoop proxySet envs retries n
                    (attempt + 1) false with
                  | (r', u', evs') => (r', u', evs ++ evs')).2.2
              by_cases hr : attempt = retries
              · rw [if_pos hr]
                exact ⟨rfl, by simp [hevs]⟩
              · rw [if_neg hr]
                cases hrec : requestLoop proxySet envs retries n
                    (attempt + 1) false with
                | mk r' rest =>
                    obtain ⟨u', evs'⟩ := rest
                    have hih := ih (attempt + 1)
                    rw [hrec] at hih
                    refine ⟨hih.1, ?_⟩
                    show TransportEvent.h2Attempt ∉ evs ++ evs'
                    simp only [List.mem_append, hevs]
                    rintro (h | h)
                    · simp at h
                    · exact hih.2 h

theorem request_false_sticky (proxySet : Bool) (envs : Nat → AttemptEnv)
    (retries : Nat) :
    (request proxySet envs retries false).2.1 = false ∧
    TransportEvent.h2Attempt ∉ (request proxySet envs retries false).2.2 :=
  requestLoop_false_sticky proxySet envs retries (retries + 1) 0

/-- Every entry of a request sequence started in downgraded state stays
downgraded and makes no H2 attempt. -/
theorem runRequests_all_fallback (proxySet : Bool) (retries : Nat) :
    ∀ es, ∀ p ∈ (runRequests proxySet retries false es).2,
    p.2 = false ∧ TransportEvent.h2Attempt ∉ p.1 := by
  intro es
  induction es with
  | nil => intro p hp; simp [runRequests] at hp
  | cons e es ih =>
      intro p hp
      cases hreq : request proxySet e retries false with
      | mk r rest0 =>
          obtain ⟨s', evs⟩ := rest0
          have hst := request_false_sticky proxySet e retries
          rw [hreq] at hst
          have hs' : s' = false := hst.1
          subst hs'
          cases hrun : runRequests proxySet retries false es with
          | mk sf l =>
              have hexp : runRequests proxySet retries false (e :: es) =
                  (sf, (evs, false) :: l) := by
                unfold runRequests
                rw [hreq]
                show (match runRequests proxySet retries false es with
                  | (sf, rest) => (sf, (evs, false) :: rest)) =
                  (sf, (evs, false) :: l)
                rw [hrun]
              rw [hexp] at hp
              rcases List.mem_cons.mp hp with rfl | hmem
              · exact ⟨rfl, hst.2⟩
              · have hihp := ih p
                rw [hrun] at hihp
                exact hihp hmem

/-- An HTTP/2 failure that also exhausts the engine's internal fallback on
attempt 0 downgrades the session permanently: `useH2` ends false and no
later attempt of this request retries H2. -/
theorem request_downgrade_on_h2_failure (envs : Nat → AttemptEnv)
    (retries : Nat) (e1 e2 : String) (h1 : (envs 0).h2Result = .error e1)
    (h2 : (envs 0).undiciResult = .error e2) :
    (request false envs retries true).2.1 = false ∧
    ∃ rest, (request false envs retries true).2.2 =
      [.h2Attempt, .h1Request] ++ rest ∧
      TransportEvent.h2Attempt ∉ rest := by
  have hengine : engineRequest (envs 0) =
      (.error ("HTTP request failed: " ++ e2),
       [.h2Attempt, .h1Request]) := by
    unfold engineRequest
    rw [h1, h2]
  unfold request requestLoop
  rw [hengine]
  rw [if_pos (by simp)]
  show (match requestLoop false envs retries retries 1 false with
    | (r', u', evs') =>
        (r', u', [TransportEvent.h2Attempt, TransportEvent.h1Request] ++
          evs')).2.1 = false ∧ _
  cases hrec : requestLoop false envs retries retries 1 false with
  | mk r' rest0 =>
      obtain ⟨u', evs'⟩ := rest0
      have hst := requestLoop_false_sticky false envs retries retries 1
      rw [hrec] at hst
      exact ⟨hst.1, evs', rfl, hst.2⟩

/-- Sticky downgrade across a whole session: once the `useH2` flag is
false after the k-th request, every later request makes no H2 attempt. -/
theorem runRequests_sticky (proxySet : Bool) (retries : Nat) :
    ∀ (es : List (Nat → AttemptEnv)) (s₀ : Bool) (k : Nat),
    ((runRequests proxySet retries s₀ es).2.getD k ([], true)).2 = false →
    ∀ j, k < j → j < (runRequests proxySet retries s₀ es).2.length →
    TransportEvent.h2Attempt ∉
      ((runRequests proxySet retries s₀ es).2.getD j ([], true)).1 := by
  intro es
  induction es with
  | nil =>
      intro s₀ k _ j _ hj
      simp [runRequests] at hj
  | cons e es ih =>
      intro s₀ k hkf j hkj hj
      cases hreq : request proxySet e retries s₀ with
      | mk r rest0 =>
          obtain ⟨s', evs⟩ := rest0
          cases hrun : runRequests proxySet retries s' es with
          | mk sf l =>
              have hexp : runRequests proxySet retries s₀ (e :: es) =
                  (sf, (evs, s') :: l) := by
                unfold runRequests
                rw [hreq]
                show (match runRequests proxySet retries s' es with
                  | (sf, rest) => (sf, (evs, s') :: rest)) =
                  (sf, (evs, s') :: l)
                rw [hrun]
              rw [hexp] at hkf hj ⊢
              cases k with
              | zero =>
                  have hs' : s' = false := by simpa using hkf
                  subst hs'
                  cases j with
                  | zero => omega
                  | succ j' =>
                      show TransportEvent.h2Attempt ∉
                        (l.getD j' ([], true)).1
                      have hj' : j' < l.length := by
                        simpa using hj
                      have hmem : l.getD j' ([], true) ∈ l :=
                        getD_mem hj' ([], true)
                      have hall := runRequests_all_fallback proxySet
                        retries es (l.getD j' ([], true))
                      rw [hrun] at hall
                      exact (hall hmem).2
              | succ k' =>
                  cases j with
                  | zero => omega
                  | succ j' =>
                      show TransportEvent.h2Attempt ∉
                        (l.getD j' ([], true)).1
                      have hih := ih s' k'
                      rw [hrun] at hih
                      exact hih (by simpa using hkf) j' (by omega)
                        (by simpa using hj)

/-- **C9.** Sticky protocol fallback: a session whose `useH2` flag is down
never makes another HTTP/2 attempt (within a request's retry loop and
across every later request of the session), and an H2 failure that
escapes the engine on the first attempt downgrades the session
permanently. Stated over the request operation: if the session state
recorded after request k is downgraded, every request after k uses only
the fallback transport. -/
theorem transport_sticky_fallback :
    (∀ (proxySet : Bool) (envs : Nat → AttemptEnv) (retries : Nat),
      (request proxySet envs retries false).2.1 = false ∧
      TransportEvent.h2Attempt ∉
        (request proxySet envs retries false).2.2) ∧
    (∀ (envs : Nat → AttemptEnv) (retries : Nat) (e1 e2 : String),
      (envs 0).h2Result = .error e1 → (envs 0).undiciResult = .error e2 →
      (request false envs retries true).2.1 = false ∧
      ∃ rest, (request false envs retries true).2.2 =
        [.h2Attempt, .h1Request] ++ rest ∧
        TransportEvent.h2Attempt ∉ rest) ∧
    (∀ (proxySet : Bool) (retries : Nat) (es : List (Nat → AttemptEnv))
      (s₀ : Bool) (k : Nat),
      ((runRequests proxySet retries s₀ es).2.getD k ([], true)).2 =
        false →
      ∀ j, k < j → j < (runRequests proxySet retries s₀ es).2.length →
      TransportEvent.h2Attempt ∉
        ((runRequests proxySet retries s₀ es).2.getD j ([], true)).1) :=
  ⟨request_false_sticky, request_downgrade_on_h2_failure,
   fun proxySet retries => runRequests_sticky proxySet retries⟩

/-- An attempt environment where H2 and the engine's undici fallback both
fail but node-fetch succeeds. -/
def failH2Env : Nat → AttemptEnv := fun _ =>
  { h2Result := .error "ECONNRESET"
    undiciResult := .error "socket hang up"
    fetchResult := .ok () }

/-- An attempt environment where every path succeeds. -/
def okEnv : Nat → AttemptEnv := fun _ =>
  { h2Result := .ok (), undiciResult := .ok (), fetchResult := .ok () }

/-- Witness for `transport_sticky_fallback`: a concrete session whose
first request downgrades ends with `useH2` false, and its second request
makes no H2 attempt. -/
theorem transport_sticky_fallback_witness :
    (request false failH2Env 2 true).2.1 = false ∧
    TransportEvent.h2Attempt ∉
      ((runRequests false 2 true [failH2Env, okEnv]).2.getD 1
        ([], true)).1 :=
  ⟨(transport_sticky_fallback.2.1 failH2Env 2 "ECONNRESET"
      "socket hang up" rfl rfl).1,
   transport_sticky_fallback.2.2 false 2 [failH2Env, okEnv] true 0
     (by decide) 1 (by decide) (by decide)⟩

-- ════════════════════════════════════════════════════════════════
-- Checkout flow: payment submission and the run state machine
-- (src/fast-checkout.js FastCheckout.submitPayment, graphqlCheckout, run)
-- ════════════════════════════════════════════════════════════════

/-- What the token/gateway extractors yield from one fetched page body
(`extractAuthToken` / `extractPaymentGateway` results; `none` = the regex
found nothing). -/
structure PageData where
  auth : Option String
  gateway : Option String
deriving DecidableEq

/-- JS truthiness of a nullable string field. -/
def strTruthy : Option String → Bool
  | some v => v ≠ ""
  | none => false

namespace FastCheckout

/-- Network behavior consumed by `submitPayment`: tokenization vault call,
the `?step=payment_method` page fetch, the bare checkout-URL retry fetch,
and the payment-completion POST (its response reduced to the
order-confirmation verdict of the marker/polling logic). -/
structure PayEnv where
  tokenize : Except String String
  payPage : Except String PageData
  checkoutPage : Except String PageData
  completion : Except String Bool

/-- Step 2 of `submitPayment`: gateway then auth token harvested from the
payment page, each only overwriting state when truthy. -/
def applyPayPage (s : SessionState) (p : PageData) : SessionState :=
  let s1 := if strTruthy p.gateway then { s with paymentGatewayId := p.gateway }
            else s
  if strTruthy p.auth then { s1 with authToken := p.auth } else s1

/-- Step 2b of `submitPayment`: auth token from the retry fetch when
truthy; gateway only filled if still missing. -/
def applyRetryPage (s : SessionState) (p : PageData) : SessionState :=
  let s1 := if strTruthy p.auth then { s with authToken := p.auth } else s
  if ¬ strTruthy s1.paymentGatewayId then
    { s1 with paymentGatewayId := p.gateway }
  else s1

/-- Step 2 of `submitPayment` as a state transformer: the payment-page
fetch (a thrown fetch is caught and leaves the state unchanged). -/
def payRefreshS1 (s : SessionState) (env : PayEnv) : SessionState :=
  match env.payPage with
  | .ok p => applyPayPage s p
  | .error _ => s

/-- Step 2b of `submitPayment`: retry against the bare checkout URL, only
when the token is still missing. -/
def payRefreshS2 (s1 : SessionState) (env : PayEnv) : SessionState :=
  if ¬ strTruthy s1.authToken then
    match env.checkoutPage with
    | .ok p => applyRetryPage s1 p
    | .error _ => s1
  else s1

/-- The tail of `submitPayment`: fail fatally without a POST when no
token is available, otherwise issue the payment-completion POST carrying
the current token and evaluate the response. -/
def payComplete (s2 : SessionState) (env : PayEnv) :
    Except String Bool × SessionState × List (Option String) :=
  if ¬ strTruthy s2.authToken then (.ok false, s2, [])
  else
    match env.completion with
    | .ok b => (.ok b, s2, [s2.authToken])
    | .error e => (.error e, s2, [s2.authToken])

/-- `FastCheckout.submitPayment(checkoutUrl, payment, dryRun)`. Returns
(JS return value or thrown error, session state after the call, the list
of payment-completion POSTs issued, each recording the `authenticity_token`
field value it carried). Tokenization (step 1) is try/caught in the
source and only affects the form contents, never the control flow. -/
def submitPayment (s : SessionState) (dryRun : Bool) (env : PayEnv) :
    Except String Bool × SessionState × List (Option String) :=
  if dryRun then (.ok true, s, [])
  else
    let _sessionToken : Option String :=
      match env.tokenize with
      | .ok t => some t
      | .error _ => none
    payComplete (payRefreshS2 (payRefreshS1 s env) env) env

/-- The checkout object of a successful `checkoutCreate` mutation (only
`webUrl` is consumed downstream). -/
structure GqlCheckoutInfo where
  webUrl : String
deriving DecidableEq

/-- Network behavior consumed by `graphqlCheckout`. `checkoutCreate` is
`.ok none` when the mutation reported user errors or no checkout id. -/
structure GqlEnv where
  storefrontToken : Option String
  checkoutCreate : Except String (Option GqlCheckoutInfo)
  shippingUpdate : Except String Unit
  tokenize : Except String String
  webUrlPage : Except String PageData
  payStepPage : Except String PageData
  completion : Except String Bool

/-- `graphqlCheckout`'s return object (its `success`/`dryRun` tags). -/
structure GqlResult where
  success : Bool
  dryRun : Bool
deriving DecidableEq

/-- The `?step=payment_method` retry inside `graphqlCheckout`'s live
path: only consulted when the webUrl page yielded no truthy token. -/
def gqlStepRefresh (s1 : SessionState) (env : GqlEnv) : SessionState :=
  if ¬ strTruthy s1.authToken then
    match env.payStepPage with
    | .ok p2 =>
        let sa := if strTruthy p2.auth then { s1 with authToken := p2.auth }
                  else s1
        if ¬ strTruthy sa.paymentGatewayId then
          { sa with paymentGatewayId := p2.gateway }
        else sa
    | .error _ => s1
  else s1

/-- The tail of `graphqlCheckout`'s live path: `return null` without a
POST when no token is available, otherwise issue the payment POST. -/
def gqlComplete (s2 : SessionState) (env : GqlEnv) :
    Option GqlResult × SessionState × List (Option String) :=
  if ¬ strTruthy s2.authToken then (none, s2, [])
  else
    match env.completion with
    | .ok b => (some { success := b, dryRun := false }, s2, [s2.authToken])
    | .error e => (none, s2, [s2.authToken])

/-- `FastCheckout.graphqlCheckout(config)`: `none` models every
`return null` path (missing token, user errors, and every caught
exception); the trace lists payment-completion POSTs as in
`submitPayment`. -/
def graphqlCheckout (s : SessionState) (dryRun : Bool) (env : GqlEnv) :
    Option GqlResult × SessionState × List (Option String) :=
  match env.storefrontToken with
  | none => (none, s, [])
  | some _ =>
      match env.checkoutCreate with
      | .error _ => (none, s, [])
      | .ok none => (none, s, [])
      | .ok (some _ck) =>
          match env.shippingUpdate with
          | .error _ => (none, s, [])
          | .ok _ =>
              if dryRun then (some { success := true, dryRun := true }, s, [])
              else
                match (if strTruthy s.prePaymentToken then
                    .ok (s.prePaymentToken.getD "") else env.tokenize :
                    Except String String) with
                | .error _ => (none, s, [])
                | .ok _tok =>
                    match env.webUrlPage with
                    | .error _ => (none, s, [])
                    | .ok p =>
                        gqlComplete (gqlStepRefresh
                          { s with authToken := p.auth,
                                   paymentGatewayId := p.gateway } env) env

/-- Network behavior consumed by `run`'s step sequence. Each step returns
its next URL plus the page harvested for token refresh; `.error` models a
thrown exception reaching `run`'s outer catch. -/
structure RunEnv where
  resolveVariant : Except String (Option String)
  gql : GqlEnv
  directCheckout : Except String (Option String)
  directPage : Except String PageData
  addToCart : Except String Bool
  createCheckout : Except String (String × PageData)
  submitShipping : Except String (String × PageData)
  selectRate : Except String (String × PageData)
  pay : PayEnv

/-- The slice of `run`'s config the embedding consumes. `detailsNonEmpty`
is `Object.keys(jiggedDetails).length > 0`. -/
structure RunConfig where
  dryRun : Bool
  taskIndex : Nat
  checkoutDetails : Address
  detailsNonEmpty : Bool

/-- The record `run`'s outer catch returns for a thrown exception. -/
def fatalResult (e : String) : RunResult :=
  { success := false, step := none, error := some e, elapsed := none,
    dryRun := none, mode := none }

/-- The record `run` returns for a tagged step failure. -/
def stepFailResult (st : String) : RunResult :=
  { success := false, step := some st, error := none, elapsed := none,
    dryRun := none, mode := none }

/-- Token/gateway refresh applied after shipping or rate submission
(auth overwritten when truthy, gateway overwritten when truthy). -/
def applyRefresh (s : SessionState) (p : PageData) : SessionState :=
  let s1 := if strTruthy p.auth then { s with authToken := p.auth } else s
  if strTruthy p.gateway then { s1 with paymentGatewayId := p.gateway }
  else s1

/-- Step 3 of `run`: shipping submission with the jigged address, skipped
when the details object is empty. -/
def runShipping (cfg : RunConfig) (env : RunEnv) (s : SessionState)
    (url : String) : Except String (String × SessionState) :=
  let _jigged := jigAddress cfg.checkoutDetails cfg.taskIndex
  if cfg.detailsNonEmpty then
    match env.submitShipping with
    | .error e => .error e
    | .ok (next, p) => .ok (next, applyRefresh s p)
  else .ok (url, s)

/-- `run`'s result on a successful REST checkout. -/
def runFastSuccessResult (cfg : RunConfig) : RunResult :=
  { success := true, step := some "complete", error := none,
    elapsed := none, dryRun := some cfg.dryRun, mode := some "fast" }

/-- Step 5 of `run`: payment submission and result classification. -/
def runPayStep (cfg : RunConfig) (env : RunEnv) (s4 : SessionState)
    (posts1 : List (Option String)) :
    RunResult × SessionState × List (Option String) :=
  match submitPayment s4 cfg.dryRun env.pay with
  | (.error e, s5, posts2) => (fatalResult e, s5, posts1 ++ posts2)
  | (.ok true, s5, posts2) =>
      (runFastSuccessResult cfg, s5, posts1 ++ posts2)
  | (.ok false, s5, posts2) =>
      (stepFailResult "payment", s5, posts1 ++ posts2)

/-- Step 4 of `run`: rate selection (with its token refresh), then
payment. -/
def runRateStep (cfg : RunConfig) (env : RunEnv) (s3 : SessionState)
    (posts1 : List (Option String)) :
    RunResult × SessionState × List (Option String) :=
  match env.selectRate with
  | .error e => (fatalResult e, s3, posts1)
  | .ok (_url3, p) => runPayStep cfg env (applyRefresh s3 p) posts1

/-- Steps 3-5 of `run` (shipping, rate selection, payment) from a
checkout URL. -/
def runRest (cfg : RunConfig) (env : RunEnv) (s : SessionState)
    (checkoutUrl : String) (posts1 : List (Option String)) :
    RunResult × SessionState × List (Option String) :=
  match runShipping cfg env s checkoutUrl with
  | .error e => (fatalResult e, s, posts1)
  | .ok (_url2, s3) => runRateStep cfg env s3 posts1

/-- The `if (!checkoutUrl)` guard after `createCheckout` in `run`
(`createCheckout` has already harvested the page into the session). -/
def runCreateBranch (cfg : RunConfig) (env : RunEnv) (s2 : SessionState)
    (url : String) (posts1 : List (Option String)) :
    RunResult × SessionState × List (Option String) :=
  if url = "" then (stepFailResult "create-checkout", s2, posts1)
  else runRest cfg env s2 url posts1

/-- Step 2 of `run`: direct checkout link, falling back to
add-to-cart / create-checkout; both harvest the checkout page. -/
def runRestEntry (cfg : RunConfig) (env : RunEnv) (s1 : SessionState)
    (posts1 : List (Option String)) :
    RunResult × SessionState × List (Option String) :=
  match env.directCheckout with
  | .error e => (fatalResult e, s1, posts1)
  | .ok (some url) =>
      match env.directPage with
      | .error e => (fatalResult e, s1, posts1)
      | .ok p =>
          runRest cfg env
            { s1 with authToken := p.auth, paymentGatewayId := p.gateway }
            url posts1
  | .ok none =>
      match env.addToCart with
      | .error e => (fatalResult e, s1, posts1)
      | .ok false => (stepFailResult "add-to-cart", s1, posts1)
      | .ok true =>
          match env.createCheckout with
          | .error e => (fatalResult e, s1, posts1)
          | .ok (url, p) =>
              runCreateBranch cfg env
                { s1 with authToken := p.auth,
                          paymentGatewayId := p.gateway }
                url posts1

/-- `run`'s result on a successful GraphQL checkout. -/
def runGqlSuccessResult (cfg : RunConfig) : RunResult :=
  { success := true, step := some "complete", error := none,
    elapsed := none, dryRun := some cfg.dryRun, mode := some "graphql" }

/-- `run`'s dispatch on `graphqlCheckout`'s result: only a successful
result returns; `null` or a non-success result falls through to REST. -/
def runAfterGql (cfg : RunConfig) (env : RunEnv) :
    Option GqlResult → SessionState → List (Option String) →
    RunResult × SessionState × List (Option String)
  | some r, s1, posts1 =>
      if r.success then (runGqlSuccessResult cfg, s1, posts1)
      else runRestEntry cfg env s1 posts1
  | none, s1, posts1 => runRestEntry cfg env s1 posts1

/-- The token reset at the top of `run`
(`this.authToken = null; this.paymentGatewayId = null`). -/
def runInit (s₀ : SessionState) : SessionState :=
  { s₀ with authToken := none, paymentGatewayId := none }

/-- `FastCheckout.run(config)`: token state is reset, the variant is
resolved, the GraphQL path is attempted first (falling through to the
REST path unless it succeeds), then the REST step sequence runs. -/
def run (cfg : RunConfig) (env : RunEnv) (s₀ : SessionState) :
    RunResult × SessionState × List (Option String) :=
  match env.resolveVariant with
  | .error e => (fatalResult e, runInit s₀, [])
  | .ok none => (stepFailResult "resolve-variant", runInit s₀, [])
  | .ok (some _v) =>
      match graphqlCheckout (runInit s₀) cfg.dryRun env.gql with
      | (r, s1, posts1) => runAfterGql cfg env r s1 posts1

end FastCheckout

-- Dry-run lemmas ----------------------------------------------------------

theorem submitPayment_dry (s : SessionState) (env : FastCheckout.PayEnv) :
    FastCheckout.submitPayment s true env = (.ok true, s, []) := rfl

theorem graphqlCheckout_dry_posts (s : SessionState)
    (env : FastCheckout.GqlEnv) :
    (FastCheckout.graphqlCheckout s true env).2.2 = [] := by
  unfold FastCheckout.graphqlCheckout
  cases env.storefrontToken with
  | none => rfl
  | some t =>
      cases env.checkoutCreate with
      | error e => rfl
      | ok o =>
          cases o with
          | none => rfl
          | some ck =>
              cases env.shippingUpdate with
              | error e => rfl
              | ok u => rfl

theorem graphqlCheckout_no_token {env : FastCheckout.GqlEnv}
    (h : env.storefrontToken = none) (s : SessionState) (dr : Bool) :
    FastCheckout.graphqlCheckout s dr env = (none, s, []) := by
  unfold FastCheckout.graphqlCheckout
  rw [h]

theorem graphqlCheckout_dry_success {env : FastCheckout.GqlEnv}
    {t : String} {ck : FastCheckout.GqlCheckoutInfo}
    (h1 : env.storefrontToken = some t)
    (h2 : env.checkoutCreate = .ok (some ck))
    (h3 : env.shippingUpdate = .ok ()) (s : SessionState) :
    FastCheckout.graphqlCheckout s true env =
      (some { success := true, dryRun := true }, s, []) := by
  unfold FastCheckout.graphqlCheckout
  rw [h1, h2, h3]
  rfl

theorem runPayStep_dry_posts (cfg : FastCheckout.RunConfig)
    (env : FastCheckout.RunEnv) (s4 : SessionState)
    (posts1 : List (Option String)) (hdry : cfg.dryRun = true) :
    (FastCheckout.runPayStep cfg env s4 posts1).2.2 = posts1 := by
  unfold FastCheckout.runPayStep
  rw [hdry, submitPayment_dry s4 env.pay]
  show posts1 ++ [] = posts1
  simp

theorem runRateStep_dry_posts (cfg : FastCheckout.RunConfig)
    (env : FastCheckout.RunEnv) (s3 : SessionState)
    (posts1 : List (Option String)) (hdry : cfg.dryRun = true) :
    (FastCheckout.runRateStep cfg env s3 posts1).2.2 = posts1 := by
  unfold FastCheckout.runRateStep
  cases hsr : env.selectRate with
  | error e => rfl
  | ok up =>
      obtain ⟨u3, p⟩ := up
      show (FastCheckout.runPayStep cfg env
        (FastCheckout.applyRefresh s3 p) posts1).2.2 = posts1
      exact runPayStep_dry_posts cfg env _ posts1 hdry

theorem runRest_dry_posts (cfg : FastCheckout.RunConfig)
    (env : FastCheckout.RunEnv) (s : SessionState) (url : String)
    (posts1 : List (Option String)) (hdry : cfg.dryRun = true) :
    (FastCheckout.runRest cfg env s url posts1).2.2 = posts1 := by
  unfold FastCheckout.runRest
  cases hsh : FastCheckout.runShipping cfg env s url with
  | error e => rfl
  | ok us =>
      obtain ⟨u2, s3⟩ := us
      show (FastCheckout.runRateStep cfg env s3 posts1).2.2 = posts1
      exact runRateStep_dry_posts cfg env s3 posts1 hdry

theorem runCreateBranch_dry_posts (cfg : FastCheckout.RunConfig)
    (env : FastCheckout.RunEnv) (s2 : SessionState) (url : String)
    (posts1 : List (Option String)) (hdry : cfg.dryRun = true) :
    (FastCheckout.runCreateBranch cfg env s2 url posts1).2.2 = posts1 := by
  unfold FastCheckout.runCreateBranch
  by_cases hu : url = ""
  · rw [if_pos hu]
  · rw [if_neg hu]
    exact runRest_dry_posts cfg env s2 url posts1 hdry

theorem runRestEntry_dry_posts (cfg : FastCheckout.RunConfig)
    (env : FastCheckout.RunEnv) (s1 : SessionState)
    (posts1 : List (Option String)) (hdry : cfg.dryRun = true) :
    (FastCheckout.runRestEntry cfg env s1 posts1).2.2 = posts1 := by
  unfold FastCheckout.runRestEntry
  cases hdc : env.directCheckout with
  | error e => rfl
  | ok o =>
      cases o with
      | some url =>
          cases hdp : env.directPage with
          | error e => rfl
          | ok p =>
              show (FastCheckout.runRest cfg env
                { s1 with authToken := p.auth,
                          paymentGatewayId := p.gateway } url posts1).2.2 =
                posts1
              exact runRest_dry_posts cfg env _ url posts1 hdry
      | none =>
          cases hac : env.addToCart with
          | error e => rfl
          | ok b =>
              cases b with
              | false => rfl
              | true =>
                  cases hcc : env.createCheckout with
                  | error e => rfl
                  | ok up =>
                      obtain ⟨url, p⟩ := up
                      show (FastCheckout.runCreateBranch cfg env
                        { s1 with authToken := p.auth,
                                  paymentGatewayId := p.gateway }
                        url posts1).2.2 = posts1
                      exact runCreateBranch_dry_posts cfg env _ url posts1
                        hdry

theorem runAfterGql_dry_posts (cfg : FastCheckout.RunConfig)
    (env : FastCheckout.RunEnv) (r : Option FastCheckout.GqlResult)
    (s1 : SessionState) (posts1 : List (Option String))
    (hdry : cfg.dryRun = true) :
    (FastCheckout.runAfterGql cfg env r s1 posts1).2.2 = posts1 := by
  cases r with
  | none => exact runRestEntry_dry_posts cfg env s1 posts1 hdry
  | some r =>
      obtain ⟨rs, rd⟩ := r
      cases rs with
      | true => rfl
      | false =>
          show (FastCheckout.runRestEntry cfg env s1 posts1).2.2 = posts1
          exact runRestEntry_dry_posts cfg env s1 posts1 hdry

theorem run_dry_posts (cfg : FastCheckout.RunConfig)
    (env : FastCheckout.RunEnv) (s₀ : SessionState)
    (hdry : cfg.dryRun = true) :
    (FastCheckout.run cfg env s₀).2.2 = [] := by
  unfold FastCheckout.run
  cases env.resolveVariant with
  | error e => rfl
  | ok o =>
      cases o with
      | none => rfl
      | some v =>
          rw [hdry]
          cases hgql : FastCheckout.graphqlCheckout
              (FastCheckout.runInit s₀) true env.gql with
          | mk r rest =>
              obtain ⟨s1, posts1⟩ := rest
              have hp : posts1 = [] := by
                have h2 := graphqlCheckout_dry_posts
                  (FastCheckout.runInit s₀) env.gql
                rw [hgql] at h2
                exact h2
              subst hp
              show (FastCheckout.runAfterGql cfg env r s1 []).2.2 = []
              exact runAfterGql_dry_posts cfg env r s1 [] hdry

-- Path lemmas for `run` --------------------------------------------------

theorem run_to_restEntry {env : FastCheckout.RunEnv} {v : String}
    (hrv : env.resolveVariant = .ok (some v))
    (hsf : env.gql.storefrontToken = none)
    (cfg : FastCheckout.RunConfig) (s₀ : SessionState) :
    FastCheckout.run cfg env s₀ =
      FastCheckout.runRestEntry cfg env (FastCheckout.runInit s₀) [] := by
  unfold FastCheckout.run
  rw [hrv, graphqlCheckout_no_token hsf]
  rfl

theorem restEntry_direct {env : FastCheckout.RunEnv} {url : String}
    {p : PageData} (hdc : env.directCheckout = .ok (some url))
    (hdp : env.directPage = .ok p) (cfg : FastCheckout.RunConfig)
    (s1 : SessionState) (posts1 : List (Option String)) :
    FastCheckout.runRestEntry cfg env s1 posts1 =
      FastCheckout.runRest cfg env
        { s1 with authToken := p.auth, paymentGatewayId := p.gateway }
        url posts1 := by
  unfold FastCheckout.runRestEntry
  rw [hdc, hdp]

theorem runShipping_ok {cfg : FastCheckout.RunConfig}
    {env : FastCheckout.RunEnv} {next2 : String} {p2 : PageData}
    (hdet : cfg.detailsNonEmpty = true)
    (hship : env.submitShipping = .ok (next2, p2))
    (s : SessionState) (url : String) :
    FastCheckout.runShipping cfg env s url =
      .ok (next2, FastCheckout.applyRefresh s p2) := by
  unfold FastCheckout.runShipping
  rw [hdet, hship]
  rfl

theorem runRest_to_pay {cfg : FastCheckout.RunConfig}
    {env : FastCheckout.RunEnv} {next2 next3 : String} {p2 p3 : PageData}
    (hdet : cfg.detailsNonEmpty = true)
    (hship : env.submitShipping = .ok (next2, p2))
    (hrate : env.selectRate = .ok (next3, p3))
    (s : SessionState) (url : String) (posts1 : List (Option String)) :
    FastCheckout.runRest cfg env s url posts1 =
      FastCheckout.runPayStep cfg env
        (FastCheckout.applyRefresh (FastCheckout.applyRefresh s p2) p3)
        posts1 := by
  unfold FastCheckout.runRest
  rw [runShipping_ok hdet hship s url]
  show FastCheckout.runRateStep cfg env (FastCheckout.applyRefresh s p2)
    posts1 = _
  unfold FastCheckout.runRateStep
  rw [hrate]

theorem runPayStep_dry_eq {cfg : FastCheckout.RunConfig}
    {env : FastCheckout.RunEnv} (hdry : cfg.dryRun = true)
    (s4 : SessionState) (posts1 : List (Option String)) :
    FastCheckout.runPayStep cfg env s4 posts1 =
      (FastCheckout.runFastSuccessResult cfg, s4, posts1 ++ []) := by
  unfold FastCheckout.runPayStep
  rw [hdry, submitPayment_dry s4 env.pay]

/-- **C1.** Dry-run mode never issues the payment-completion POST:
`submitPayment` under `dryRun` returns `true` at once with the session
untouched and an empty POST trace; a whole `run` with `dryRun = true`
issues no payment POST on any path; and when the flow reaches the payment
step — on the REST path (GraphQL fell through, direct checkout link,
shipping and rate submission succeed) or on the GraphQL path (storefront
token present, `checkoutCreate` and the shipping mutation succeed) — the
result is `success := true` with `dryRun := some true`, reached through
the same step sequence as live mode up to the payment step. -/
theorem dry_run_no_payment_post :
    (∀ (s : SessionState) (env : FastCheckout.PayEnv),
        FastCheckout.submitPayment s true env = (.ok true, s, [])) ∧
    (∀ (cfg : FastCheckout.RunConfig) (env : FastCheckout.RunEnv)
        (s₀ : SessionState), cfg.dryRun = true →
        (FastCheckout.run cfg env s₀).2.2 = []) ∧
    (∀ (cfg : FastCheckout.RunConfig) (env : FastCheckout.RunEnv)
        (s₀ : SessionState) (v url next2 next3 : String)
        (p p2 p3 : PageData),
        cfg.dryRun = true →
        env.resolveVariant = .ok (some v) →
        env.gql.storefrontToken = none →
        env.directCheckout = .ok (some url) →
        env.directPage = .ok p →
        cfg.detailsNonEmpty = true →
        env.submitShipping = .ok (next2, p2) →
        env.selectRate = .ok (next3, p3) →
        (FastCheckout.run cfg env s₀).1 =
          { success := true, step := some "complete", error := none,
            elapsed := none, dryRun := some true, mode := some "fast" } ∧
        (FastCheckout.run cfg env s₀).2.2 = []) ∧
    (∀ (cfg : FastCheckout.RunConfig) (env : FastCheckout.RunEnv)
        (s₀ : SessionState) (v t : String)
        (ck : FastCheckout.GqlCheckoutInfo),
        cfg.dryRun = true →
        env.resolveVariant = .ok (some v) →
        env.gql.storefrontToken = some t →
        env.gql.checkoutCreate = .ok (some ck) →
        env.gql.shippingUpdate = .ok () →
        FastCheckout.run cfg env s₀ =
          ({ success := true, step := some "complete", error := none,
             elapsed := none, dryRun := some true,
             mode := some "graphql" },
           FastCheckout.runInit s₀, [])) := by
  refine ⟨submitPayment_dry, ?_, ?_, ?_⟩
  · intro cfg env s₀ hdry
    exact run_dry_posts cfg env s₀ hdry
  · intro cfg env s₀ v url next2 next3 p p2 p3 hdry hrv hsf hdc hdp hdet
      hship hrate
    rw [run_to_restEntry hrv hsf cfg s₀, restEntry_direct hdc hdp cfg _ [],
        runRest_to_pay hdet hship hrate _ url [],
        runPayStep_dry_eq hdry _ []]
    refine ⟨?_, rfl⟩
    show FastCheckout.runFastSuccessResult cfg = _
    unfold FastCheckout.runFastSuccessResult
    rw [hdry]
  · intro cfg env s₀ v t ck hdry hrv h1 h2 h3
    unfold FastCheckout.run
    rw [hrv, hdry,
        graphqlCheckout_dry_success h1 h2 h3 (FastCheckout.runInit s₀)]
    show FastCheckout.runAfterGql cfg env (some ⟨true, true⟩)
      (FastCheckout.runInit s₀) [] = _
    unfold FastCheckout.runAfterGql
    show (FastCheckout.runGqlSuccessResult cfg,
      FastCheckout.runInit s₀, []) = _
    unfold FastCheckout.runGqlSuccessResult
    rw [hdry]

/-- A page carrying a truthy auth token and gateway id. -/
def pageW : PageData := { auth := some "authA", gateway := some "gwA" }

/-- A dry-run configuration over the sample address. -/
def dryCfg : FastCheckout.RunConfig :=
  { dryRun := true, taskIndex := 0, checkoutDetails := sampleAddr,
    detailsNonEmpty := true }

/-- A payment environment where every request succeeds. -/
def dryPayEnv : FastCheckout.PayEnv :=
  { tokenize := .ok "ptok", payPage := .ok pageW,
    checkoutPage := .ok pageW, completion := .ok true }

/-- A GraphQL environment with no storefront token (falls through to
REST). -/
def dryGqlFallEnv : FastCheckout.GqlEnv :=
  { storefrontToken := none, checkoutCreate := .ok none,
    shippingUpdate := .ok (), tokenize := .ok "ptok",
    webUrlPage := .ok pageW, payStepPage := .ok pageW,
    completion := .ok true }

/-- A run environment taking the direct-checkout REST path. -/
def dryRestEnv : FastCheckout.RunEnv :=
  { resolveVariant := .ok (some "123"), gql := dryGqlFallEnv,
    directCheckout := .ok (some "https://x.com/checkouts/abc"),
    directPage := .ok pageW, addToCart := .ok true,
    createCheckout := .ok ("https://x.com/checkouts/abc", pageW),
    submitShipping := .ok ("https://x.com/step2", pageW),
    selectRate := .ok ("https://x.com/step3", pageW),
    pay := dryPayEnv }

/-- A GraphQL environment that reaches the dry-run return. -/
def dryGqlOkEnv : FastCheckout.GqlEnv :=
  { dryGqlFallEnv with
    storefrontToken := some "sftok"
    checkoutCreate := .ok (some ⟨"https://x.com/wurl"⟩) }

/-- A run environment whose GraphQL path succeeds. -/
def dryGqlRunEnv : FastCheckout.RunEnv :=
  { dryRestEnv with gql := dryGqlOkEnv }

/-- Witness for `dry_run_no_payment_post`: a concrete dry REST run and a
concrete dry GraphQL run each issue no payment POST and return the
`success`/`dryRun` record. -/
theorem dry_run_no_payment_post_witness :
    (FastCheckout.run dryCfg dryRestEnv freshSession).2.2 = [] ∧
    (FastCheckout.run dryCfg dryRestEnv freshSession).1 =
      { success := true, step := some "complete", error := none,
        elapsed := none, dryRun := some true, mode := some "fast" } ∧
    FastCheckout.run dryCfg dryGqlRunEnv freshSession =
      ({ success := true, step := some "complete", error := none,
         elapsed := none, dryRun := some true, mode := some "graphql" },
       FastCheckout.runInit freshSession, []) :=
  ⟨dry_run_no_payment_post.2.1 dryCfg dryRestEnv freshSession rfl,
   (dry_run_no_payment_post.2.2.1 dryCfg dryRestEnv freshSession "123"
      "https://x.com/checkouts/abc" "https://x.com/step2"
      "https://x.com/step3" pageW pageW pageW rfl rfl rfl rfl rfl rfl rfl
      rfl).1,
   dry_run_no_payment_post.2.2.2 dryCfg dryGqlRunEnv freshSession "123"
     "sftok" ⟨"https://x.com/wurl"⟩ rfl rfl rfl rfl rfl⟩

-- Token-guard lemmas ------------------------------------------------------

theorem applyPayPage_auth_skip {p : PageData}
    (hpa : strTruthy p.auth = false) (s : SessionState) :
    (FastCheckout.applyPayPage s p).authToken = s.authToken := by
  simp only [FastCheckout.applyPayPage, hpa]
  split_ifs <;> simp_all

theorem applyPayPage_auth_set {p : PageData}
    (hpa : strTruthy p.auth = true) (s : SessionState) :
    (FastCheckout.applyPayPage s p).authToken = p.auth := by
  simp only [FastCheckout.applyPayPage, hpa]
  split_ifs <;> simp_all

theorem applyRetryPage_auth_skip {p : PageData}
    (hpa : strTruthy p.auth = false) (s : SessionState) :
    (FastCheckout.applyRetryPage s p).authToken = s.authToken := by
  simp only [FastCheckout.applyRetryPage, hpa]
  split_ifs <;> simp_all

theorem applyRefresh_auth_skip {p : PageData}
    (hpa : strTruthy p.auth = false) (s : SessionState) :
    (FastCheckout.applyRefresh s p).authToken = s.authToken := by
  simp only [FastCheckout.applyRefresh, hpa]
  split_ifs <;> simp_all

theorem payRefreshS1_ok {env : FastCheckout.PayEnv} {pp : PageData}
    (hpp : env.payPage = .ok pp) (s : SessionState) :
    FastCheckout.payRefreshS1 s env = FastCheckout.applyPayPage s pp := by
  unfold FastCheckout.payRefreshS1
  rw [hpp]

theorem payRefreshS2_skip {s1 : SessionState}
    (h : strTruthy s1.authToken = true) (env : FastCheckout.PayEnv) :
    FastCheckout.payRefreshS2 s1 env = s1 := by
  unfold FastCheckout.payRefreshS2
  rw [if_neg (show ¬¬(strTruthy s1.authToken = true) by simp [h])]

theorem payRefreshS2_retry {env : FastCheckout.PayEnv} {qq : PageData}
    (hcq : env.checkoutPage = .ok qq) {s1 : SessionState}
    (h : strTruthy s1.authToken = false) :
    FastCheckout.payRefreshS2 s1 env =
      FastCheckout.applyRetryPage s1 qq := by
  unfold FastCheckout.payRefreshS2
  rw [if_pos (show ¬(strTruthy s1.authToken = true) by simp [h]), hcq]

theorem payRefresh_auth_skip {env : FastCheckout.PayEnv} {pp qq : PageData}
    (hpp : env.payPage = .ok pp) (hppa : strTruthy pp.auth = false)
    (hcq : env.checkoutPage = .ok qq) (hqqa : strTruthy qq.auth = false)
    (s : SessionState) :
    (FastCheckout.payRefreshS2 (FastCheckout.payRefreshS1 s env)
      env).authToken = s.authToken := by
  rw [payRefreshS1_ok hpp]
  by_cases h : strTruthy (FastCheckout.applyPayPage s pp).authToken = true
  · rw [payRefreshS2_skip h, applyPayPage_auth_skip hppa]
  · have h2 : strTruthy (FastCheckout.applyPayPage s pp).authToken
        = false := by
      cases hx : strTruthy (FastCheckout.applyPayPage s pp).authToken
      · rfl
      · exact absurd hx h
    rw [payRefreshS2_retry hcq h2, applyRetryPage_auth_skip hqqa,
        applyPayPage_auth_skip hppa]

theorem payComplete_no_token {s2 : SessionState}
    (h : strTruthy s2.authToken = false) (env : FastCheckout.PayEnv) :
    FastCheckout.payComplete s2 env = (.ok false, s2, []) := by
  unfold FastCheckout.payComplete
  rw [if_pos (show ¬(strTruthy s2.authToken = true) by simp [h])]

theorem payComplete_token_ok {s2 : SessionState}
    {env : FastCheckout.PayEnv} {b : Bool}
    (h : strTruthy s2.authToken = true) (hc : env.completion = .ok b) :
    FastCheckout.payComplete s2 env = (.ok b, s2, [s2.authToken]) := by
  unfold FastCheckout.payComplete
  rw [if_neg (show ¬¬(strTruthy s2.authToken = true) by simp [h]), hc]

theorem submitPayment_live (s : SessionState) (env : FastCheckout.PayEnv) :
    FastCheckout.submitPayment s false env =
      FastCheckout.payComplete
        (FastCheckout.payRefreshS2 (FastCheckout.payRefreshS1 s env) env)
        env := rfl

theorem payComplete_trace (s2 : SessionState) (env : FastCheckout.PayEnv) :
    ∀ tok ∈ (FastCheckout.payComplete s2 env).2.2, strTruthy tok = true := by
  intro tok htok
  by_cases h : strTruthy s2.authToken = true
  · cases hc : env.completion with
    | ok b =>
        rw [payComplete_token_ok h hc] at htok
        simp at htok
        rw [htok]
        exact h
    | error e =>
        have he : FastCheckout.payComplete s2 env =
            (.error e, s2, [s2.authToken]) := by
          unfold FastCheckout.payComplete
          rw [if_neg (show ¬¬(strTruthy s2.authToken = true) by simp [h]),
              hc]
        rw [he] at htok
        simp at htok
        rw [htok]
        exact h
  · have h2 : strTruthy s2.authToken = false := by
      cases hx : strTruthy s2.authToken
      · rfl
      · exact absurd hx h
    rw [payComplete_no_token h2 env] at htok
    simp at htok

theorem submitPayment_trace (s : SessionState) (dry : Bool)
    (env : FastCheckout.PayEnv) :
    ∀ tok ∈ (FastCheckout.submitPayment s dry env).2.2,
      strTruthy tok = true := by
  cases dry with
  | true =>
      intro tok htok
      rw [submitPayment_dry s env] at htok
      simp at htok
  | false =>
      rw [submitPayment_live s env]
      exact payComplete_trace _ env

theorem gqlComplete_trace (s2 : SessionState) (env : FastCheckout.GqlEnv) :
    ∀ tok ∈ (FastCheckout.gqlComplete s2 env).2.2, strTruthy tok = true := by
  intro tok htok
  by_cases h : strTruthy s2.authToken = true
  · have he : (FastCheckout.gqlComplete s2 env).2.2 = [s2.authToken] := by
      unfold FastCheckout.gqlComplete
      rw [if_neg (show ¬¬(strTruthy s2.authToken = true) by simp [h])]
      cases env.completion <;> rfl
    rw [he] at htok
    simp at htok
    rw [htok]
    exact h
  · have he : FastCheckout.gqlComplete s2 env = (none, s2, []) := by
      unfold FastCheckout.gqlComplete
      rw [if_pos h]
    rw [he] at htok
    simp at htok

theorem graphqlCheckout_create_err {env : FastCheckout.GqlEnv} {t e : String}
    (h1 : env.storefrontToken = some t)
    (h2 : env.checkoutCreate = .error e) (s : SessionState) (dry : Bool) :
    FastCheckout.graphqlCheckout s dry env = (none, s, []) := by
  unfold FastCheckout.graphqlCheckout
  rw [h1, h2]

theorem graphqlCheckout_create_none {env : FastCheckout.GqlEnv} {t : String}
    (h1 : env.storefrontToken = some t)
    (h2 : env.checkoutCreate = .ok none) (s : SessionState) (dry : Bool) :
    FastCheckout.graphqlCheckout s dry env = (none, s, []) := by
  unfold FastCheckout.graphqlCheckout
  rw [h1, h2]

theorem graphqlCheckout_ship_err {env : FastCheckout.GqlEnv} {t e : String}
    {ck : FastCheckout.GqlCheckoutInfo}
    (h1 : env.storefrontToken = some t)
    (h2 : env.checkoutCreate = .ok (some ck))
    (h3 : env.shippingUpdate = .error e) (s : SessionState) (dry : Bool) :
    FastCheckout.graphqlCheckout s dry env = (none, s, []) := by
  unfold FastCheckout.graphqlCheckout
  rw [h1, h2, h3]

theorem graphqlCheckout_live {env : FastCheckout.GqlEnv} {t : String}
    {ck : FastCheckout.GqlCheckoutInfo}
    (h1 : env.storefrontToken = some t)
    (h2 : env.checkoutCreate = .ok (some ck))
    (h3 : env.shippingUpdate = .ok ()) (s : SessionState) :
    FastCheckout.graphqlCheckout s false env =
      (match (if strTruthy s.prePaymentToken then
          .ok (s.prePaymentToken.getD "") else env.tokenize :
          Except String String) with
       | .error _ => (none, s, [])
       | .ok _tok =>
           match env.webUrlPage with
           | .error _ => (none, s, [])
           | .ok p =>
               FastCheckout.gqlComplete (FastCheckout.gqlStepRefresh
                 { s with authToken := p.auth,
                          paymentGatewayId := p.gateway } env) env) := by
  unfold FastCheckout.graphqlCheckout
  rw [h1, h2, h3]
  rfl

theorem graphqlCheckout_trace (s : SessionState) (dry : Bool)
    (env : FastCheckout.GqlEnv) :
    ∀ tok ∈ (FastCheckout.graphqlCheckout s dry env).2.2,
      strTruthy tok = true := by
  cases dry with
  | true =>
      intro tok htok
      rw [graphqlCheckout_dry_posts s env] at htok
      simp at htok
  | false =>
      cases hst : env.storefrontToken with
      | none =>
          intro tok htok
          rw [graphqlCheckout_no_token hst s false] at htok
          simp at htok
      | some t =>
          cases hcc : env.checkoutCreate with
          | error e =>
              intro tok htok
              rw [graphqlCheckout_create_err hst hcc s false] at htok
              simp at htok
          | ok o =>
              cases o with
              | none =>
                  intro tok htok
                  rw [graphqlCheckout_create_none hst hcc s false] at htok
                  simp at htok
              | some ck =>
                  cases hsu : env.shippingUpdate with
                  | error e =>
                      intro tok htok
                      rw [graphqlCheckout_ship_err hst hcc hsu s false]
                        at htok
                      simp at htok
                  | ok u =>
                      cases u
                      rw [graphqlCheckout_live hst hcc hsu s]
                      cases hpt : (if strTruthy s.prePaymentToken then
                          .ok (s.prePaymentToken.getD "") else env.tokenize :
                          Except String String) with
                      | error e =>
                          intro tok htok
                          simp at htok
                      | ok tk =>
                          cases hwp : env.webUrlPage with
                          | error e =>
                              intro tok htok
                              simp at htok
                          | ok p =>
                              exact gqlComplete_trace _ env

-- Run-level trace lemmas --------------------------------------------------

theorem runPayStep_trace (cfg : FastCheckout.RunConfig)
    (env : FastCheckout.RunEnv) (s4 : SessionState)
    (posts1 : List (Option String))
    (hp : ∀ tok ∈ posts1, strTruthy tok = true) :
    ∀ tok ∈ (FastCheckout.runPayStep cfg env s4 posts1).2.2,
      strTruthy tok = true := by
  intro tok htok
  cases hsp : FastCheckout.submitPayment s4 cfg.dryRun env.pay with
  | mk r rest =>
    obtain ⟨s5, posts2⟩ := rest
    have h2 : ∀ tk ∈ posts2, strTruthy tk = true := by
      have h3 := submitPayment_trace s4 cfg.dryRun env.pay
      rw [hsp] at h3
      exact h3
    have happ : tok ∈ posts1 ++ posts2 := by
      cases r with
      | error e =>
          have he : FastCheckout.runPayStep cfg env s4 posts1 =
              (FastCheckout.fatalResult e, s5, posts1 ++ posts2) := by
            unfold FastCheckout.runPayStep
            rw [hsp]
          rw [he] at htok
          exact htok
      | ok b =>
          cases b with
          | true =>
              have he : FastCheckout.runPayStep cfg env s4 posts1 =
                  (FastCheckout.runFastSuccessResult cfg, s5,
                   posts1 ++ posts2) := by
                unfold FastCheckout.runPayStep
                rw [hsp]
              rw [he] at htok
              exact htok
          | false =>
              have he : FastCheckout.runPayStep cfg env s4 posts1 =
                  (FastCheckout.stepFailResult "payment", s5,
                   posts1 ++ posts2) := by
                unfold FastCheckout.runPayStep
                rw [hsp]
              rw [he] at htok
              exact htok
    rcases List.mem_append.mp happ with hmem | hmem
    · exact hp tok hmem
    · exact h2 tok hmem

theorem runRateStep_trace (cfg : FastCheckout.RunConfig)
    (env : FastCheckout.RunEnv) (s3 : SessionState)
    (posts1 : List (Option String))
    (hp : ∀ tok ∈ posts1, strTruthy tok = true) :
    ∀ tok ∈ (FastCheckout.runRateStep cfg env s3 posts1).2.2,
      strTruthy tok = true := by
  intro tok htok
  unfold FastCheckout.runRateStep at htok
  cases hsr : env.selectRate with
  | error e =>
      rw [hsr] at htok
      exact hp tok htok
  | ok up =>
      obtain ⟨u, p⟩ := up
      rw [hsr] at htok
      exact runPayStep_trace cfg env _ posts1 hp tok htok

theorem runRest_trace (cfg : FastCheckout.RunConfig)
    (env : FastCheckout.RunEnv) (s : SessionState) (url : String)
    (posts1 : List (Option String))
    (hp : ∀ tok ∈ posts1, strTruthy tok = true) :
    ∀ tok ∈ (FastCheckout.runRest cfg env s url posts1).2.2,
      strTruthy tok = true := by
  intro tok htok
  unfold FastCheckout.runRest at htok
  cases hsh : FastCheckout.runShipping cfg env s url with
  | error e =>
      rw [hsh] at htok
      exact hp tok htok
  | ok us =>
      obtain ⟨u2, s3⟩ := us
      rw [hsh] at htok
      exact runRateStep_trace cfg env s3 posts1 hp tok htok

theorem runCreateBranch_trace (cfg : FastCheckout.RunConfig)
    (env : FastCheckout.RunEnv) (s2 : SessionState) (url : String)
    (posts1 : List (Option String))
    (hp : ∀ tok ∈ posts1, strTruthy tok = true) :
    ∀ tok ∈ (FastCheckout.runCreateBranch cfg env s2 url posts1).2.2,
      strTruthy tok = true := by
  intro tok htok
  unfold FastCheckout.runCreateBranch at htok
  by_cases hu : url = ""
  · rw [if_pos hu] at htok
    exact hp tok htok
  · rw [if_neg hu] at htok
    exact runRest_trace cfg env s2 url posts1 hp tok htok

theorem runRestEntry_trace (cfg : FastCheckout.RunConfig)
    (env : FastCheckout.RunEnv) (s1 : SessionState)
    (posts1 : List (Option String))
    (hp : ∀ tok ∈ posts1, strTruthy tok = true) :
    ∀ tok ∈ (FastCheckout.runRestEntry cfg env s1 posts1).2.2,
      strTruthy tok = true := by
  intro tok htok
  unfold FastCheckout.runRestEntry at htok
  cases hdc : env.directCheckout with
  | error e =>
      rw [hdc] at htok
      exact hp tok htok
  | ok o =>
      cases o with
      | some url =>
          rw [hdc] at htok
          cases hdp : env.directPage with
          | error e =>
              rw [hdp] at htok
              exact hp tok htok
          | ok p =>
              rw [hdp] at htok
              exact runRest_trace cfg env _ url posts1 hp tok htok
      | none =>
          rw [hdc] at htok
          cases hac : env.addToCart with
          | error e =>
              rw [hac] at htok
              exact hp tok htok
          | ok b =>
              cases b with
              | false =>
                  rw [hac] at htok
                  exact hp tok htok
              | true =>
                  rw [hac] at htok
                  cases hcc : env.createCheckout with
                  | error e =>
                      rw [hcc] at htok
                      exact hp tok htok
                  | ok up =>
                      obtain ⟨url, p⟩ := up
                      rw [hcc] at htok
                      exact runCreateBranch_trace cfg env _ url posts1 hp
                        tok htok

theorem runAfterGql_trace (cfg : FastCheckout.RunConfig)
    (env : FastCheckout.RunEnv) (r : Option FastCheckout.GqlResult)
    (s1 : SessionState) (posts1 : List (Option String))
    (hp : ∀ tok ∈ posts1, strTruthy tok = true) :
    ∀ tok ∈ (FastCheckout.runAfterGql cfg env r s1 posts1).2.2,
      strTruthy tok = true := by
  intro tok htok
  cases r with
  | none => exact runRestEntry_trace cfg env s1 posts1 hp tok htok
  | some r =>
      obtain ⟨rs, rd⟩ := r
      cases rs with
      | true =>
          have he : FastCheckout.runAfterGql cfg env
              (some ⟨true, rd⟩) s1 posts1 =
              (FastCheckout.runGqlSuccessResult cfg, s1, posts1) := rfl
          rw [he] at htok
          exact hp tok htok
      | false =>
          exact runRestEntry_trace cfg env s1 posts1 hp tok htok

theorem run_trace (cfg : FastCheckout.RunConfig)
    (env : FastCheckout.RunEnv) (s₀ : SessionState) :
    ∀ tok ∈ (FastCheckout.run cfg env s₀).2.2, strTruthy tok = true := by
  intro tok htok
  unfold FastCheckout.run at htok
  cases hrv : env.resolveVariant with
  | error e =>
      rw [hrv] at htok
      simp at htok
  | ok o =>
      cases o with
      | none =>
          rw [hrv] at htok
          simp at htok
      | some v =>
          rw [hrv] at htok
          cases hg : FastCheckout.graphqlCheckout (FastCheckout.runInit s₀)
              cfg.dryRun env.gql with
          | mk r rest =>
            obtain ⟨s1, posts1⟩ := rest
            rw [hg] at htok
            have hp1 : ∀ tk ∈ posts1, strTruthy tk = true := by
              have h2 := graphqlCheckout_trace (FastCheckout.runInit s₀)
                cfg.dryRun env.gql
              rw [hg] at h2
              exact h2
            exact runAfterGql_trace cfg env r s1 posts1 hp1 tok htok

theorem runPayStep_live_no_token {cfg : FastCheckout.RunConfig}
    {env : FastCheckout.RunEnv} {pp qq : PageData}
    (hdry : cfg.dryRun = false)
    (hpp : env.pay.payPage = .ok pp) (hppa : strTruthy pp.auth = false)
    (hcq : env.pay.checkoutPage = .ok qq)
    (hqqa : strTruthy qq.auth = false)
    {s4 : SessionState} (hs4 : strTruthy s4.authToken = false)
    (posts1 : List (Option String)) :
    FastCheckout.runPayStep cfg env s4 posts1 =
      (FastCheckout.stepFailResult "payment",
       FastCheckout.payRefreshS2 (FastCheckout.payRefreshS1 s4 env.pay)
         env.pay, posts1 ++ []) := by
  have hno : strTruthy (FastCheckout.payRefreshS2
      (FastCheckout.payRefreshS1 s4 env.pay) env.pay).authToken = false := by
    rw [payRefresh_auth_skip hpp hppa hcq hqqa]
    exact hs4
  unfold FastCheckout.runPayStep
  rw [hdry, submitPayment_live s4 env.pay, payComplete_no_token hno]

/-- **C2.** Payment submission is never attempted without an auth token:
every payment-completion POST — in `submitPayment`, in `graphqlCheckout`,
and across a whole `run` — carries a truthy (non-null, non-empty)
`authenticity_token`; in live mode, when both the payment-page refresh and
the checkout-URL retry yield no truthy token, `submitPayment` returns
`false` with no POST issued and `run` fails at the `payment` step; and
when the payment-page refresh does yield a truthy token, the POST carries
exactly that freshly harvested token. -/
theorem payment_token_guard :
    (∀ (s : SessionState) (dry : Bool) (env : FastCheckout.PayEnv),
        ∀ tok ∈ (FastCheckout.submitPayment s dry env).2.2,
          strTruthy tok = true) ∧
    (∀ (s : SessionState) (dry : Bool) (env : FastCheckout.GqlEnv),
        ∀ tok ∈ (FastCheckout.graphqlCheckout s dry env).2.2,
          strTruthy tok = true) ∧
    (∀ (cfg : FastCheckout.RunConfig) (env : FastCheckout.RunEnv)
        (s₀ : SessionState),
        ∀ tok ∈ (FastCheckout.run cfg env s₀).2.2,
          strTruthy tok = true) ∧
    (∀ (s : SessionState) (env : FastCheckout.PayEnv) (pp qq : PageData),
        strTruthy s.authToken = false →
        env.payPage = .ok pp → strTruthy pp.auth = false →
        env.checkoutPage = .ok qq → strTruthy qq.auth = false →
        (FastCheckout.submitPayment s false env).1 = .ok false ∧
        (FastCheckout.submitPayment s false env).2.2 = []) ∧
    (∀ (s : SessionState) (env : FastCheckout.PayEnv) (pp : PageData)
        (b : Bool),
        env.payPage = .ok pp → strTruthy pp.auth = true →
        env.completion = .ok b →
        FastCheckout.submitPayment s false env =
          (.ok b, FastCheckout.applyPayPage s pp, [pp.auth])) ∧
    (∀ (cfg : FastCheckout.RunConfig) (env : FastCheckout.RunEnv)
        (s₀ : SessionState) (v url next2 next3 : String)
        (p p2 p3 pp qq : PageData),
        cfg.dryRun = false →
        env.resolveVariant = .ok (some v) →
        env.gql.storefrontToken = none →
        env.directCheckout = .ok (some url) →
        env.directPage = .ok p → strTruthy p.auth = false →
        cfg.detailsNonEmpty = true →
        env.submitShipping = .ok (next2, p2) →
        strTruthy p2.auth = false →
        env.selectRate = .ok (next3, p3) →
        strTruthy p3.auth = false →
        env.pay.payPage = .ok pp → strTruthy pp.auth = false →
        env.pay.checkoutPage = .ok qq → strTruthy qq.auth = false →
        (FastCheckout.run cfg env s₀).1 =
          FastCheckout.stepFailResult "payment" ∧
        (FastCheckout.run cfg env s₀).2.2 = []) := by
  refine ⟨submitPayment_trace, graphqlCheckout_trace, run_trace, ?_, ?_, ?_⟩
  · intro s env pp qq hs hpp hppa hcq hqqa
    have hno : strTruthy (FastCheckout.payRefreshS2
        (FastCheckout.payRefreshS1 s env) env).authToken = false := by
      rw [payRefresh_auth_skip hpp hppa hcq hqqa]
      exact hs
    rw [submitPayment_live s env, payComplete_no_token hno]
    exact ⟨rfl, rfl⟩
  · intro s env pp b hpp hpa hcb
    have h2 : (FastCheckout.applyPayPage s pp).authToken = pp.auth :=
      applyPayPage_auth_set hpa s
    rw [submitPayment_live s env, payRefreshS1_ok hpp,
        payRefreshS2_skip (by rw [h2]; exact hpa) env,
        payComplete_token_ok (by rw [h2]; exact hpa) hcb, h2]
  · intro cfg env s₀ v url next2 next3 p p2 p3 pp qq hdry hrv hsf hdc hdp
      hpa hdet hship hp2a hrate hp3a hpp hppa hcq hqqa
    have hs4 : strTruthy (FastCheckout.applyRefresh
        (FastCheckout.applyRefresh
          { FastCheckout.runInit s₀ with
              authToken := p.auth, paymentGatewayId := p.gateway } p2)
        p3).authToken = false := by
      rw [applyRefresh_auth_skip hp3a, applyRefresh_auth_skip hp2a]
      exact hpa
    rw [run_to_restEntry hrv hsf cfg s₀, restEntry_direct hdc hdp cfg _ [],
        runRest_to_pay hdet hship hrate _ url [],
        runPayStep_live_no_token hdry hpp hppa hcq hqqa hs4 []]
    exact ⟨rfl, rfl⟩

/-- A harvested page carrying no auth token. -/
def noTokPage : PageData := { auth := none, gateway := some "gw1" }

/-- A harvested page carrying a truthy auth token. -/
def tokPage : PageData := { auth := some "freshTok", gateway := some "gw1" }

/-- A live payment environment whose page fetches never yield a token. -/
def livePayEnvNoTok : FastCheckout.PayEnv :=
  { tokenize := .ok "vault1", payPage := .ok noTokPage,
    checkoutPage := .ok noTokPage, completion := .ok true }

/-- A live payment environment whose payment-page refresh yields a
token. -/
def livePayEnvTok : FastCheckout.PayEnv :=
  { tokenize := .ok "vault1", payPage := .ok tokPage,
    checkoutPage := .ok noTokPage, completion := .ok true }

/-- A live (non-dry) configuration over the sample address. -/
def liveCfg : FastCheckout.RunConfig :=
  { dryRun := false, taskIndex := 0, checkoutDetails := sampleAddr,
    detailsNonEmpty := true }

/-- A GraphQL environment with no storefront token, for the live run. -/
def liveGqlFallEnv : FastCheckout.GqlEnv :=
  { storefrontToken := none, checkoutCreate := .ok none,
    shippingUpdate := .ok (), tokenize := .ok "vault1",
    webUrlPage := .ok noTokPage, payStepPage := .ok noTokPage,
    completion := .ok true }

/-- A live run environment on which no fetched page ever carries an auth
token. -/
def liveRunEnv : FastCheckout.RunEnv :=
  { resolveVariant := .ok (some "321"), gql := liveGqlFallEnv,
    directCheckout := .ok (some "https://x.com/checkouts/live"),
    directPage := .ok noTokPage, addToCart := .ok true,
    createCheckout := .ok ("https://x.com/checkouts/live", noTokPage),
    submitShipping := .ok ("https://x.com/s2", noTokPage),
    selectRate := .ok ("https://x.com/s3", noTokPage),
    pay := livePayEnvNoTok }

/-- Witness for `payment_token_guard`: a concrete live run with no token
anywhere fails at the `payment` step with no POST, and a concrete
`submitPayment` whose payment-page refresh harvests `"freshTok"` issues
exactly one POST carrying that token. -/
theorem payment_token_guard_witness :
    (FastCheckout.run liveCfg liveRunEnv freshSession).1 =
      FastCheckout.stepFailResult "payment" ∧
    (FastCheckout.run liveCfg liveRunEnv freshSession).2.2 = [] ∧
    FastCheckout.submitPayment freshSession false livePayEnvTok =
      (.ok true, FastCheckout.applyPayPage freshSession tokPage,
       [some "freshTok"]) := by
  refine ⟨?_, ?_, ?_⟩
  · exact (payment_token_guard.2.2.2.2.2 liveCfg liveRunEnv freshSession
      "321" "https://x.com/checkouts/live" "https://x.com/s2"
      "https://x.com/s3" noTokPage noTokPage noTokPage noTokPage noTokPage
      rfl rfl rfl rfl rfl rfl rfl rfl rfl rfl rfl rfl rfl rfl rfl).1
  · exact (payment_token_guard.2.2.2.2.2 liveCfg liveRunEnv freshSession
      "321" "https://x.com/checkouts/live" "https://x.com/s2"
      "https://x.com/s3" noTokPage noTokPage noTokPage noTokPage noTokPage
      rfl rfl rfl rfl rfl rfl rfl rfl rfl rfl rfl rfl rfl rfl rfl).2
  · exact payment_token_guard.2.2.2.2.1 freshSession livePayEnvTok tokPage
      true rfl (by decide) rfl

end Bot
